import Mathlib

/-!
# Verification of the visual-script graph compiler
  (src/src/editor/visual_script_plugins.cpp)

Shallow embedding of the graph model, its binary persistence, the per-node
code generation and the WASM module emitter.  Machine integers are modelled
as `Nat` with explicit `% 2^w` where wrap-around matters; byte streams are
`List Nat`; 32-bit floats are carried as their raw 4-byte bit patterns
(serialization and code emission only ever copy those bytes).
-/

namespace VisualScript

/-! ## Variable-length integer encoding (`writeLEB128`)

The source takes a `u64` value; `val >>= 7` is a logical shift and
`val == -1` compares against `2^64 - 1`.  A byte's `& 0x40` test is
`64 ≤ byte` (the byte is 7 bits). -/

/-- One iteration bound for the `writeLEB128` loop: the value shrinks by a
factor 128 each round, so `val + 1` rounds always suffice; the fuel never
runs out (see `writeLEB128Go_ne_nil`), it only makes the recursion
structural. -/
def writeLEB128Go : Nat → Nat → List Nat
  | 0, _ => []
  | fuel + 1, val =>
    if (val / 128 = 0 ∧ val % 128 < 64) ∨ (val / 128 = 2 ^ 64 - 1 ∧ 64 ≤ val % 128) then
      [val % 128]
    else
      (val % 128 + 128) :: writeLEB128Go fuel (val / 128)

/-- `writeLEB128` from the source: emit `val & 0x7f`, shift by 7, stop when
`(val == 0 && (byte & 0x40) == 0) || (val == -1 && (byte & 0x40) != 0)`
(the `-1` comparison is against the `u64` value `2^64 - 1`); otherwise set
the continuation bit `0x80` and loop. -/
def writeLEB128 (val : Nat) : List Nat :=
  writeLEB128Go (val + 1) val

/-- Base-128 little-endian accumulation of the 7 data bits of each byte:
the `result |= (byte & 0x7f) << shift` loop of an LEB128 decoder. -/
def lebRaw : List Nat → Nat
  | [] => 0
  | b :: rest => b % 128 + 128 * lebRaw rest

/-- Reinterpret a 64-bit pattern as a signed (two's-complement) integer. -/
def toInt64 (u : Nat) : Int :=
  if u < 2 ^ 63 then (u : Int) else (u : Int) - 2 ^ 64

/-- Canonical signed-LEB128 reference decoder (DWARF pseudocode with a
64-bit two's-complement result): accumulate the 7-bit groups; if the total
shift is below 64 and the last byte's sign bit (`0x40`) is set, OR in the
sign extension `-(1 << shift)` (as a 64-bit pattern, `2^64 - 2^shift`);
reinterpret the resulting 64-bit pattern as a signed integer. -/
def slebReferenceDecode (bytes : List Nat) : Int :=
  if 7 * bytes.length < 64 ∧ 64 ≤ (bytes.getLast?.getD 0) % 128 then
    toInt64 ((lebRaw bytes + (2 ^ 64 - 2 ^ (7 * bytes.length))) % 2 ^ 64)
  else
    toInt64 (lebRaw bytes % 2 ^ 64)

/-! ## Graph data model

`ScriptValueType` comes from `script.h` (outside this file); the editor's
combo box lists its values in the order `u32, i32, float, entity`, and the
codes matter for the serialized 4-byte enum payloads. -/

/-- Scalar value kind of a variable / value pin. -/
inductive ScriptValueType
  | U32
  | I32
  | FLOAT
  | ENTITY
deriving DecidableEq, Repr

/-- Underlying enum code (4-byte little-endian in streams). -/
def ScriptValueType.code : ScriptValueType → Nat
  | .U32 => 0
  | .I32 => 1
  | .FLOAT => 2
  | .ENTITY => 3

def ScriptValueType.ofCode (c : Nat) : Option ScriptValueType :=
  if c = 0 then some .U32
  else if c = 1 then some .I32
  else if c = 2 then some .FLOAT
  else if c = 3 then some .ENTITY
  else none

/-- Comparison flavour: the template parameter of `CompareNode<T>`. -/
inductive CmpOp
  | EQ
  | NEQ
  | GT
  | LT
  | GTE
  | LTE
deriving DecidableEq, Repr

/-- A node's type tag together with its type-specific payload.
Floats are stored as raw 32-bit patterns (`value < 2^32`); reflected
component references store the data the node keeps in memory
(`cmp_type` handle, property/function name bytes). -/
inductive NodeData
  | add
  | sequence
  | selfNode
  | setYaw
  | constNode (value : Nat)
  | mouseMove
  | update
  | getVariable (var : Nat)
  | setVariable (var : Nat)
  | setProperty (prop value : List Nat) (cmp_type : Nat)
  | mul
  | call (cmpName funcName : List Nat)
  | vec3
  | yawToDir
  | start
  | ifNode
  | cmp (op : CmpOp)
  | keyInput
  | getProperty (prop : List Nat) (cmp_type : Nat)
  | switchNode (is_on : Bool)
deriving DecidableEq, Repr

/-- `Node::Type` enum code (`u32` in streams): ADD=0, SEQUENCE=1, SELF=2,
SET_YAW=3, CONST=4, MOUSE_MOVE=5, UPDATE=6, GET_VARIABLE=7, SET_VARIABLE=8,
SET_PROPERTY=9, MUL=10, CALL=11, VEC3=12, YAW_TO_DIR=13, START=14, IF=15,
EQ=16, NEQ=17, GT=18, LT=19, GTE=20, LTE=21, KEY_INPUT=22, GET_PROPERTY=23,
SWITCH=24. -/
def NodeData.typeCode : NodeData → Nat
  | .add => 0
  | .sequence => 1
  | .selfNode => 2
  | .setYaw => 3
  | .constNode _ => 4
  | .mouseMove => 5
  | .update => 6
  | .getVariable _ => 7
  | .setVariable _ => 8
  | .setProperty _ _ _ => 9
  | .mul => 10
  | .call _ _ => 11
  | .vec3 => 12
  | .yawToDir => 13
  | .start => 14
  | .ifNode => 15
  | .cmp .EQ => 16
  | .cmp .NEQ => 17
  | .cmp .GT => 18
  | .cmp .LT => 19
  | .cmp .GTE => 20
  | .cmp .LTE => 21
  | .keyInput => 22
  | .getProperty _ _ => 23
  | .switchNode _ => 24

/-- A graph vertex: identifier, 2-D position (two raw f32 bit patterns)
and type-specific payload. -/
structure Node where
  m_id : Nat
  m_pos : Nat × Nat
  data : NodeData
deriving DecidableEq, Repr

/-- `NodeEditorLink`: two `u32` endpoints; `from` and `to` are Lean keywords,
hence `from_`/`to_`.  Low 15 bits of an endpoint = node id, bits 16.. = pin index
(bit 15 is the editor's OUTPUT_FLAG). -/
structure NodeEditorLink where
  from_ : Nat
  to_ : Nat
deriving DecidableEq, Repr

/-- `from & 0x7fff`. -/
def NodeEditorLink.getFromNode (l : NodeEditorLink) : Nat := l.from_ % 32768

/-- `from >> 16`. -/
def NodeEditorLink.getFromPin (l : NodeEditorLink) : Nat := l.from_ / 65536

/-- `to & 0x7fff`. -/
def NodeEditorLink.getToNode (l : NodeEditorLink) : Nat := l.to_ % 32768

/-- `to >> 16`. -/
def NodeEditorLink.getToPin (l : NodeEditorLink) : Nat := l.to_ / 65536

/-- A named, typed graph-global. -/
structure Variable where
  name : List Nat
  type : ScriptValueType
deriving DecidableEq, Repr

/-- The graph: node list, link list, variable list and the next-identifier
counter (a `u32`). -/
structure Graph where
  m_nodes : List Node
  m_links : List NodeEditorLink
  m_variables : List Variable
  m_node_counter : Nat
deriving DecidableEq, Repr

/-- A freshly constructed graph. -/
def emptyGraph : Graph :=
  { m_nodes := [], m_links := [], m_variables := [], m_node_counter := 0 }

/-- `Graph::getNode`: first node with the given id, or null. -/
def Graph.getNode (g : Graph) (id : Nat) : Option Node :=
  g.m_nodes.find? (fun n => n.m_id == id)

/-- `Node::getOutputNode`: find the first link leaving pin `idx` of this
node, then resolve its `to` endpoint (`to & 0x7fff` node, `to >> 16` pin).
A missing link or an unresolvable target node both behave as "no output"
at every call site (the C++ `NodeInput.node` null check). -/
def Node.getOutputNode (n : Node) (idx : Nat) (g : Graph) : Option (Node × Nat) :=
  match g.m_links.find? (fun l => l.getFromNode == n.m_id && l.getFromPin == idx) with
  | none => none
  | some l => (g.getNode (l.to_ % 32768)).map (fun m => (m, l.to_ / 65536))

/-- `Node::getInputNode`: find the first link whose `to` endpoint equals
`m_id | (idx << 16)` exactly, then resolve its `from` endpoint. -/
def Node.getInputNode (n : Node) (idx : Nat) (g : Graph) : Option (Node × Nat) :=
  match g.m_links.find? (fun l => l.to_ == n.m_id ||| (idx <<< 16)) with
  | none => none
  | some l => (g.getNode (l.from_ % 32768)).map (fun m => (m, l.from_ / 65536))

/-- `Graph::addNode`: assign `++m_node_counter` (u32 pre-increment) as the
new node's id and append it. -/
def Graph.addNode (g : Graph) (data : NodeData) (pos : Nat × Nat) : Graph :=
  let id := (g.m_node_counter + 1) % 2 ^ 32
  { g with
    m_node_counter := id
    m_nodes := g.m_nodes ++ [{ m_id := id, m_pos := pos, data := data }] }

/-- `Graph::removeNode`: drop every link whose (masked) endpoint node id is
the removed node's id, then erase the node at index `node`.  The source's
reverse-index erase loop keeps the relative order of survivors, i.e. it is
a list filter. -/
def Graph.removeNode (g : Graph) (node : Nat) : Graph :=
  match g.m_nodes[node]? with
  | none => g
  | some n =>
    { g with
      m_links := g.m_links.filter
        (fun l => !(l.from_ % 32768 == n.m_id || l.to_ % 32768 == n.m_id))
      m_nodes := g.m_nodes.eraseIdx node }

/-- A graph mutation step: node addition or removal (C4's reachability). -/
inductive GraphOp
  | add (data : NodeData) (pos : Nat × Nat)
  | remove (idx : Nat)

/-- Apply a sequence of additions/removals. -/
def applyOps (g : Graph) : List GraphOp → Graph
  | [] => g
  | .add d p :: rest => applyOps (g.addNode d p) rest
  | .remove i :: rest => applyOps (g.removeNode i) rest

/-- Number of additions in an operation sequence. -/
def addCount (ops : List GraphOp) : Nat :=
  ops.countP (fun op => match op with | .add _ _ => true | _ => false)

/-- The `{A,B,C}` graph of the spec's removal example: ids 1, 2, 3 with
links `A→B`, `B→C`, `A→C`. -/
def abcGraph : Graph :=
  { m_nodes :=
      [ { m_id := 1, m_pos := (0, 0), data := .start }
      , { m_id := 2, m_pos := (0, 0), data := .sequence }
      , { m_id := 3, m_pos := (0, 0), data := .sequence } ]
    m_links := [⟨1, 2⟩, ⟨2, 3⟩, ⟨1, 3⟩]
    m_variables := []
    m_node_counter := 3 }

/-! ## Byte-stream primitives and the external environment

`OutputMemoryStream::write` on a `u32` stores 4 little-endian bytes;
`writeString`/`readString` use NUL-terminated strings.  Reading past the
end of the input, or hitting an enum value / reflection state that the
C++ would only crash on later, is modelled as `none`. -/

/-- Little-endian bytes of a 32-bit value (high bits are discarded, as the
`u32` store does). -/
def u32le (n : Nat) : List Nat :=
  [n % 256, n / 256 % 256, n / 65536 % 256, n / 16777216 % 256]

/-- `InputMemoryStream::read<u32>`. -/
def readU32 : List Nat → Option (Nat × List Nat)
  | b0 :: b1 :: b2 :: b3 :: rest =>
    some (b0 % 256 + 256 * (b1 % 256) + 65536 * (b2 % 256) + 16777216 * (b3 % 256), rest)
  | _ => none

/-- `InputMemoryStream::readString`: bytes up to the NUL terminator. -/
def readString : List Nat → Option (List Nat × List Nat)
  | [] => none
  | b :: rest =>
    if b = 0 then some ([], rest)
    else (readString rest).map (fun sr => (b :: sr.1, sr.2))

/-- External collaborators as opaque-but-pure lookups: the reflection
registry (component/property names, hashes, handles), the C `atof`, and
the fixed `ScriptResource::Header` blob.  Hash results are `u32`/`u64`
patterns. -/
structure Env where
  nameHash : List Nat → Nat
  compByHash : Nat → Option (List Nat × List (List Nat))
  typeName : Nat → Option (List Nat)
  nameType : List Nat → Nat
  propHash : Nat → List Nat → Nat
  atofBits : List Nat → Nat
  scriptHeader : List Nat

/-- Per-node-type payload serialization (`Node::serialize` overrides).
Payloads touching reflection need the environment: a property node writes
`getComponent(cmp_type)->name` (`none` models the null-component crash). -/
def nodeSer (env : Env) : NodeData → Option (List Nat)
  | .constNode v => some (u32le v)
  | .getVariable v => some (u32le v)
  | .setVariable v => some (u32le v)
  | .switchNode b => some [if b then 1 else 0]
  | .call cname fname => some (u32le (env.nameHash cname) ++ fname ++ [0])
  | .getProperty prop ct =>
    (env.typeName ct).map (fun cname => prop ++ [0] ++ cname ++ [0])
  | .setProperty prop v ct =>
    (env.typeName ct).map (fun cname => prop ++ [0] ++ v ++ [0] ++ cname ++ [0])
  | _ => some []

/-- Per-node-type payload deserialization (`Node::deserialize` overrides),
keyed by the `Node::Type` code just read.  `copyString` into the 64-byte
property/value buffers truncates to 63 characters.  A `CALL` node whose
component or function fails to resolve keeps a null pointer that the C++
can no longer re-serialize; that state (and an unknown type code, for
which `createNode` returns null) is modelled as `none`. -/
def nodeDeser (env : Env) (t : Nat) (bytes : List Nat) : Option (NodeData × List Nat) :=
  match t with
  | 0 => some (.add, bytes)
  | 1 => some (.sequence, bytes)
  | 2 => some (.selfNode, bytes)
  | 3 => some (.setYaw, bytes)
  | 4 => (readU32 bytes).map (fun vr => (.constNode vr.1, vr.2))
  | 5 => some (.mouseMove, bytes)
  | 6 => some (.update, bytes)
  | 7 => (readU32 bytes).map (fun vr => (.getVariable vr.1, vr.2))
  | 8 => (readU32 bytes).map (fun vr => (.setVariable vr.1, vr.2))
  | 9 => do
    let pr ← readString bytes
    let vr ← readString pr.2
    let cr ← readString vr.2
    some (.setProperty (pr.1.take 63) (vr.1.take 63) (env.nameType cr.1), cr.2)
  | 10 => some (.mul, bytes)
  | 11 => do
    let hr ← readU32 bytes
    let fr ← readString hr.2
    match env.compByHash hr.1 with
    | none => none
    | some cf => if fr.1 ∈ cf.2 then some (.call cf.1 fr.1, fr.2) else none
  | 12 => some (.vec3, bytes)
  | 13 => some (.yawToDir, bytes)
  | 14 => some (.start, bytes)
  | 15 => some (.ifNode, bytes)
  | 16 => some (.cmp .EQ, bytes)
  | 17 => some (.cmp .NEQ, bytes)
  | 18 => some (.cmp .GT, bytes)
  | 19 => some (.cmp .LT, bytes)
  | 20 => some (.cmp .GTE, bytes)
  | 21 => some (.cmp .LTE, bytes)
  | 22 => some (.keyInput, bytes)
  | 23 => do
    let pr ← readString bytes
    let cr ← readString pr.2
    some (.getProperty (pr.1.take 63) (env.nameType cr.1), cr.2)
  | 24 =>
    match bytes with
    | [] => none
    | b :: r => some (.switchNode (b ≠ 0), r)
  | _ => none

/-- `'_LVS'` as a `u32` multi-character literal. -/
def MAGIC : Nat := 0x5F4C5653

/-- `Graph::serialize`: magic, version 0, id counter, then the counted
variable, link and node lists; each node contributes type code, id,
position and its payload. -/
def Graph.serialize (env : Env) (g : Graph) : Option (List Nat) := do
  let nodeBlobs ← g.m_nodes.mapM (fun n =>
    (nodeSer env n.data).map (fun pb =>
      u32le n.data.typeCode ++ u32le n.m_id ++ u32le n.m_pos.1 ++ u32le n.m_pos.2 ++ pb))
  some (u32le MAGIC ++ u32le 0 ++ u32le g.m_node_counter ++
    u32le g.m_variables.length ++
    (g.m_variables.map (fun v => v.name ++ [0] ++ u32le v.type.code)).flatten ++
    u32le g.m_links.length ++
    (g.m_links.map (fun l => u32le l.from_ ++ u32le l.to_)).flatten ++
    u32le g.m_nodes.length ++ nodeBlobs.flatten)

/-- The variable-reading loop of `Graph::deserialize` (an out-of-range
enum byte pattern would leave a garbage enum; modelled as `none`). -/
def readVars : Nat → List Nat → Option (List Variable × List Nat)
  | 0, bytes => some ([], bytes)
  | k + 1, bytes => do
    let nr ← readString bytes
    let tr ← readU32 nr.2
    let ty ← ScriptValueType.ofCode tr.1
    let rest ← readVars k tr.2
    some (⟨nr.1, ty⟩ :: rest.1, rest.2)

/-- The link-reading loop of `Graph::deserialize`. -/
def readLinks : Nat → List Nat → Option (List NodeEditorLink × List Nat)
  | 0, bytes => some ([], bytes)
  | k + 1, bytes => do
    let fr ← readU32 bytes
    let tr ← readU32 fr.2
    let rest ← readLinks k tr.2
    some (⟨fr.1, tr.1⟩ :: rest.1, rest.2)

/-- The node-reading loop of `Graph::deserialize`: type code, id,
position, then the type's payload. -/
def readNodes (env : Env) : Nat → List Nat → Option (List Node × List Nat)
  | 0, bytes => some ([], bytes)
  | k + 1, bytes => do
    let tr ← readU32 bytes
    let ir ← readU32 tr.2
    let xr ← readU32 ir.2
    let yr ← readU32 xr.2
    let dr ← nodeDeser env tr.1 yr.2
    let rest ← readNodes env k dr.2
    some (⟨ir.1, (xr.1, yr.1), dr.1⟩ :: rest.1, rest.2)

/-- `Graph::deserialize`.  The C++ mutates the live graph in place, but
its first mutation (`blob.read(m_node_counter)`) happens only after both
the magic and the version check, so the two guarded failures return with
the graph untouched: modelled as `some (false, g)`.  Reading appends to
the existing arrays (callers deserialize into a fresh or cleared graph).
Each iteration of the node-reading loop calls `createNode`, which
dispatches to `addNode` and there executes `n->m_id = ++m_node_counter`
(the id is overwritten by the stored one right after, but the `u32`
pre-increment is not undone), so after reading `node_count` nodes the
counter holds `stored + node_count` modulo `2^32`.  `none` models the
unguarded crash paths (truncated input, unknown node type). -/
def Graph.deserialize (env : Env) (g : Graph) (bytes : List Nat) :
    Option (Bool × Graph) :=
  (readU32 bytes).bind fun mr =>
    if mr.1 ≠ MAGIC then some (false, g) else
    (readU32 mr.2).bind fun vr =>
      if vr.1 ≠ 0 then some (false, g) else
      (readU32 vr.2).bind fun cr =>
        (readU32 cr.2).bind fun vc =>
          (readVars vc.1 vc.2).bind fun vars =>
            (readU32 vars.2).bind fun lc =>
              (readLinks lc.1 lc.2).bind fun links =>
                (readU32 links.2).bind fun nc =>
                  (readNodes env nc.1 nc.2).bind fun nodes =>
                    some (true,
                      { m_nodes := g.m_nodes ++ nodes.1
                        m_links := g.m_links ++ links.1
                        m_variables := g.m_variables ++ vars.1
                        m_node_counter := (cr.1 + nc.1) % 2 ^ 32 })

/-- Conditions under which a node payload survives the save/load/save
round trip: `u32` fields in range, strings NUL-free and (for the 64-byte
`copyString` buffers) at most 63 bytes, and reflection lookups that
invert each other on this node's data. -/
def payloadGood (env : Env) : NodeData → Prop
  | .constNode v => v < 2 ^ 32
  | .getVariable v => v < 2 ^ 32
  | .setVariable v => v < 2 ^ 32
  | .call cname fname => (0 : Nat) ∉ fname ∧
      ∃ funcs, env.compByHash (env.nameHash cname % 2 ^ 32) = some (cname, funcs) ∧
        fname ∈ funcs
  | .getProperty prop ct => prop.length ≤ 63 ∧ (0 : Nat) ∉ prop ∧
      ∃ cname, env.typeName ct = some cname ∧ (0 : Nat) ∉ cname ∧
        env.nameType cname = ct
  | .setProperty prop v ct => prop.length ≤ 63 ∧ (0 : Nat) ∉ prop ∧
      v.length ≤ 63 ∧ (0 : Nat) ∉ v ∧
      ∃ cname, env.typeName ct = some cname ∧ (0 : Nat) ∉ cname ∧
        env.nameType cname = ct
  | _ => True

/-- Representation invariants of a persistable graph: `u32` fields in
range, NUL-free variable names, and every node payload round-trippable. -/
def Graph.wf (env : Env) (g : Graph) : Prop :=
  g.m_node_counter < 2 ^ 32 ∧
  g.m_variables.length < 2 ^ 32 ∧
  g.m_links.length < 2 ^ 32 ∧
  g.m_nodes.length < 2 ^ 32 ∧
  (∀ v ∈ g.m_variables, (0 : Nat) ∉ v.name) ∧
  (∀ l ∈ g.m_links, l.from_ < 2 ^ 32 ∧ l.to_ < 2 ^ 32) ∧
  (∀ n ∈ g.m_nodes, n.m_id < 2 ^ 32 ∧ n.m_pos.1 < 2 ^ 32 ∧ n.m_pos.2 < 2 ^ 32 ∧
    payloadGood env n.data)

/-- Concrete witness graph: one constant node, one link, one variable. -/
def wgraph : Graph :=
  { m_nodes := [{ m_id := 1, m_pos := (0, 1078530011), data := .constNode 1078530011 }]
    m_links := [⟨1, 65538⟩]
    m_variables := [⟨[104, 112], .FLOAT⟩]
    m_node_counter := 1 }

/-- Concrete graph for the operand-type-mismatch scenarios: a float
constant (bits of 2.5f) and an `i32` variable read, both wired into the
value inputs of node 3 (`A` on pin 0, `B` on pin 1). -/
def g2x : Graph :=
  { m_nodes := [
      { m_id := 1, m_pos := (0, 0), data := .constNode 1075838976 },
      { m_id := 2, m_pos := (0, 0), data := .getVariable 0 },
      { m_id := 3, m_pos := (0, 0), data := .cmp .EQ } ]
    m_links := [⟨1, 3⟩, ⟨2, 65539⟩]
    m_variables := [⟨[120], .I32⟩]
    m_node_counter := 3 }

/-- Concrete emitter witness graph: one update entry node, one `float`
variable. -/
def g8 : Graph :=
  { m_nodes := [{ m_id := 1, m_pos := (0, 0), data := .update }]
    m_links := []
    m_variables := [⟨[104, 112], .FLOAT⟩]
    m_node_counter := 1 }

/-- Emitter counterexample graph: a single variable of kind `u32`, which
the variable switch of `Graph::generate` handles by
`default: ASSERT(false)` — a release no-op, so no global is added. -/
def gU : Graph :=
  { m_nodes := [], m_links := [], m_variables := [⟨[117], .U32⟩], m_node_counter := 0 }

/-- A trivial concrete environment (no registered components). -/
def env0 : Env :=
  { nameHash := fun _ => 0
    compByHash := fun _ => none
    typeName := fun _ => none
    nameType := fun _ => 0
    propHash := fun _ _ => 0
    atofBits := fun _ => 0
    scriptHeader := [] }

/-! ## Per-node code generation

`generate` appends WASM opcodes to the output blob and records per-node
diagnostics (`m_error`).  The recursion follows graph links, which may be
cyclic, so it carries explicit fuel; `none` means "out of fuel" (the C++
would not terminate) or a state the C++ could only crash on.  Opcode
bytes are the `WasmOp` values of the source. -/

/-- `F32`-family comparison opcode for a `CompareNode<T>`. -/
def cmpOpcodeF32 : CmpOp → Nat
  | .EQ => 0x5B
  | .NEQ => 0x5C
  | .LT => 0x5D
  | .GT => 0x5E
  | .GTE => 0x60
  | .LTE => 0x5F

/-- `I32`-family comparison opcode for a `CompareNode<T>`. -/
def cmpOpcodeI32 : CmpOp → Nat
  | .EQ => 0x46
  | .NEQ => 0x47
  | .LT => 0x48
  | .GT => 0x4A
  | .GTE => 0x4E
  | .LTE => 0x4C

/-- `Node::getOutputType` (virtual), fueled because arithmetic/comparison
nodes recurse into their first operand.  The base-class default is `I32`.
`GetVariableNode` indexes the variable list with no bounds check: the
out-of-range case (`none`) is undefined behaviour in the C++. -/
def getOutputType (g : Graph) : Nat → Node → Nat → Option ScriptValueType
  | 0, _, _ => none
  | fuel + 1, n, _ =>
    match n.data with
    | .cmp _ =>
      match n.getInputNode 0 g with
      | some m => getOutputType g fuel m.1 m.2
      | none => some .I32
    | .add =>
      match n.getInputNode 0 g with
      | some m => getOutputType g fuel m.1 m.2
      | none => some .I32
    | .mul =>
      match n.getInputNode 0 g with
      | some m => getOutputType g fuel m.1 m.2
      | none => some .I32
    | .selfNode => some .ENTITY
    | .constNode _ => some .FLOAT
    | .keyInput => some .I32
    | .mouseMove => some .FLOAT
    | .update => some .FLOAT
    | .getVariable v => (g.m_variables[v]?).map (fun w => w.type)
    | .getProperty _ _ => some .FLOAT
    | _ => some .I32

/-- Code-generation state: the output blob and the per-node diagnostics
(`m_error` strings; latest entry per node id wins). -/
structure GenState where
  blob : List Nat
  errors : List (Nat × String)
deriving DecidableEq, Repr

/-- Record `m_error = msg` on node `id`. -/
def setError (st : GenState) (id : Nat) (msg : String) : GenState :=
  { st with errors := (id, msg) :: st.errors }

/-- Current `m_error` of node `id`. -/
def getError (st : GenState) (id : Nat) : Option String :=
  (st.errors.find? (fun p => p.1 == id)).map (fun p => p.2)

/-- Append opcode bytes to the blob. -/
def emit (st : GenState) (bs : List Nat) : GenState :=
  { st with blob := st.blob ++ bs }

/-- `Node::generateNext`: follow the flow-output link on pin 0, if any. -/
def genNext (rec : Node → Nat → GenState → Option GenState) (g : Graph) (n : Node)
    (st : GenState) : Option GenState :=
  match n.getOutputNode 0 g with
  | none => some st
  | some m => rec m.1 m.2 st

/-- The `SequenceNode::generate` loop: emit the continuation on pin
`i = 0, 1, …` (each with selector 0) until a pin has no link.  At most
`|links|` pins can have links, so the bound `|links| + 1` is never the
reason the loop stops. -/
def genSeq (rec : Node → Nat → GenState → Option GenState) (g : Graph) (n : Node) :
    Nat → Nat → GenState → Option GenState
  | 0, _, _ => none
  | cnt + 1, i, st =>
    match n.getOutputNode i g with
    | none => some st
    | some m => (rec m.1 0 st).bind fun st2 => genSeq rec g n cnt (i + 1) st2

/-- `CompareNode<T>::generate`, over abstract recursive-emit (`rec`) and
type-query (`tyOf`) callbacks: emit operand A then B, infer both types;
on mismatch set "Types do not match" and stop; otherwise append the
comparison opcode of the (common) type's family. -/
def genCmp (rec : Node → Nat → GenState → Option GenState)
    (tyOf : Node → Nat → Option ScriptValueType) (op : CmpOp) (g : Graph)
    (n : Node) (st : GenState) : Option GenState :=
  match n.getInputNode 0 g, n.getInputNode 1 g with
  | some a, some b =>
    (rec a.1 a.2 st).bind fun st1 =>
    (rec b.1 b.2 st1).bind fun st2 =>
    (tyOf a.1 a.2).bind fun typeA =>
    (tyOf b.1 b.2).bind fun typeB =>
    if typeA ≠ typeB then some (setError st2 n.m_id "Types do not match")
    else if typeA = .FLOAT then some (emit st2 [cmpOpcodeF32 op])
    else some (emit st2 [cmpOpcodeI32 op])
  | _, _ => some (setError st n.m_id "Missing input")

/-- `AddNode::generate` / `MulNode::generate` (identical shape, different
opcodes): emit both operands, then the operator matching the **first**
operand's type — no type-mismatch check at all. -/
def genArith (rec : Node → Nat → GenState → Option GenState)
    (tyOf : Node → Nat → Option ScriptValueType) (opF opI : Nat) (g : Graph)
    (n : Node) (st : GenState) : Option GenState :=
  match n.getInputNode 0 g, n.getInputNode 1 g with
  | some n0, some n1 =>
    (rec n0.1 n0.2 st).bind fun st1 =>
    (rec n1.1 n1.2 st1).bind fun st2 =>
    (tyOf n0.1 n0.2).map fun t0 =>
    if t0 = .FLOAT then emit st2 [opF] else emit st2 [opI]
  | _, _ => some (setError st n.m_id "Missing inputs")

/-- `SetYawNode::generate`: both value inputs required; emit them, the
host call, then the flow continuation. -/
def genSetYaw (rec : Node → Nat → GenState → Option GenState) (g : Graph)
    (n : Node) (st : GenState) : Option GenState :=
  match n.getInputNode 1 g, n.getInputNode 2 g with
  | some o1, some o2 =>
    (rec o1.1 o1.2 st).bind fun st1 =>
    (rec o2.1 o2.2 st1).bind fun st2 =>
    genNext rec g n (emit st2 (0x10 :: writeLEB128 0))
  | _, _ => some (setError st n.m_id "Missing inputs")

/-- `SetVariableNode::generate`: value input required; emit it, the
global write, then the flow continuation. -/
def genSetVariable (rec : Node → Nat → GenState → Option GenState) (v : Nat)
    (g : Graph) (n : Node) (st : GenState) : Option GenState :=
  match n.getInputNode 1 g with
  | none => some (setError st n.m_id "Missing input")
  | some m =>
    (rec m.1 m.2 st).bind fun st1 =>
    genNext rec g n (emit st1 (0x24 :: writeLEB128 ((v + 1) % 2 ^ 32)))

/-- `Node::generate` (virtual), dispatched on the node's type, fueled on
link-following recursion depth.  Each arm is the corresponding source
override; `KeyInputNode` and `MouseMoveNode` reproduce the `switch`
fall-through from `case 0` into `case 1` (no `break`). -/
def genNode (env : Env) (g : Graph) : Nat → Node → Nat → GenState → Option GenState
  | 0, _, _, _ => none
  | fuel + 1, n, output_idx, st =>
    match n.data with
    | .cmp op => genCmp (genNode env g fuel) (getOutputType g fuel) op g n st
    | .add => genArith (genNode env g fuel) (getOutputType g fuel) 0x92 0x6A g n st
    | .mul => genArith (genNode env g fuel) (getOutputType g fuel) 0x94 0x6C g n st
    | .ifNode =>
      match n.getOutputNode 0 g, n.getOutputNode 1 g with
      | some t, some f =>
        match n.getInputNode 1 g with
        | some c =>
          (genNode env g fuel c.1 c.2 st).bind fun st1 =>
          (genNode env g fuel t.1 t.2 (emit st1 [0x04, 0x40])).bind fun st3 =>
          (genNode env g fuel f.1 f.2 (emit st3 [0x05])).bind fun st5 =>
          some (emit st5 [0x0B])
        | none => some (setError st n.m_id "Missing condition")
      | _, _ => some (setError st n.m_id "Missing outputs")
    | .sequence => genSeq (genNode env g fuel) g n (g.m_links.length + 1) 0 st
    | .selfNode => some (emit st (0x23 :: writeLEB128 0))
    | .setYaw => genSetYaw (genNode env g fuel) g n st
    | .constNode v => some (emit st (0x43 :: u32le v))
    | .switchNode is_on =>
      match n.getOutputNode (if is_on then 0 else 1) g with
      | none => some st
      | some m => genNode env g fuel m.1 m.2 st
    | .keyInput =>
      match output_idx with
      | 0 =>
        ((match n.getOutputNode 0 g with
          | none => some (emit st [0])
          | some o => genNode env g fuel o.1 o.2 (emit st [0])).bind fun st2 =>
          some (emit st2 [0x0B, 0x20, 0x00]))
      | 1 => some (emit st [0x20, 0x00])
      | _ => some st
    | .mouseMove =>
      match output_idx with
      | 0 =>
        ((match n.getOutputNode 0 g with
          | none => some (emit st [0])
          | some o => genNode env g fuel o.1 o.2 (emit st [0])).bind fun st2 =>
          some (emit st2 [0x0B, 0x20, 0x00]))
      | 1 => some (emit st [0x20, 0x00])
      | 2 => some (emit st [0x20, 0x01])
      | _ => some st
    | .update =>
      if output_idx = 0 then
        ((match n.getOutputNode 0 g with
          | none => some (emit st [0])
          | some o => genNode env g fuel o.1 o.2 (emit st [0])).bind fun st2 =>
          some (emit st2 [0x0B]))
      else some (emit st [0x20, 0x00])
    | .start =>
      ((match n.getOutputNode 0 g with
        | none => some (emit st [0])
        | some o => genNode env g fuel o.1 o.2 (emit st [0])).bind fun st2 =>
        some (emit st2 [0x0B]))
    | .getVariable v => some (emit st (0x23 :: writeLEB128 ((v + 1) % 2 ^ 32)))
    | .setVariable v => genSetVariable (genNode env g fuel) v g n st
    | .getProperty prop ct =>
      match n.getInputNode 0 g with
      | none => some (setError st n.m_id "Missing entity input")
      | some o =>
        (genNode env g fuel o.1 o.2 st).bind fun st1 =>
        some (emit st1 ((0x42 :: writeLEB128 (env.propHash ct prop % 2 ^ 64)) ++
          0x10 :: writeLEB128 2))
    | .setProperty prop value ct =>
      match n.getInputNode 1 g with
      | none => some (setError st n.m_id "Missing entity input")
      | some o1 =>
        (genNode env g fuel o1.1 o1.2 st).bind fun st1 =>
        ((match n.getInputNode 2 g with
          | some o2 => genNode env g fuel o2.1 o2.2
              (emit st1 (0x42 :: writeLEB128 (env.propHash ct prop % 2 ^ 64)))
          | none => some (emit
              (emit st1 (0x42 :: writeLEB128 (env.propHash ct prop % 2 ^ 64)))
              (0x43 :: u32le (env.atofBits value)))).bind fun st3 =>
          genNext (genNode env g fuel) g n (emit st3 (0x10 :: writeLEB128 1)))
    | .call _ _ => some st
    | .vec3 => some st
    | .yawToDir => some st

/-! ## The WASM module emitter (`WASMWriter`) -/

/-- `WASMType` with its byte encoding. -/
inductive WASMType
  | F64
  | F32
  | I64
  | I32
  | VOID
deriving DecidableEq, Repr

def WASMType.byte : WASMType → Nat
  | .F64 => 0x7C
  | .F32 => 0x7D
  | .I64 => 0x7E
  | .I32 => 0x7F
  | .VOID => 0xFF

/-- `WASMWriter::Import`. -/
structure Import where
  module_name : List Nat
  field_name : List Nat
  args : List WASMType
  ret_type : WASMType
deriving DecidableEq, Repr

/-- `WASMWriter::Export`: name, bound root node, parameter types. -/
structure Export where
  name : List Nat
  node : Node
  args : List WASMType
deriving DecidableEq, Repr

/-- `WASMWriter::Global`. -/
structure Global where
  export_name : List Nat
  type : WASMType
deriving DecidableEq, Repr

structure WASMWriter where
  m_imports : List Import
  m_globals : List Global
  m_exports : List Export
deriving DecidableEq, Repr

/-- `WASMWriter::writeString`: LEB length prefix, then the raw bytes. -/
def wasmWriteString (s : List Nat) : List Nat :=
  writeLEB128 s.length ++ s

/-- `WASMWriter::writeSection`: 1-byte section id, the body length as a
LEB of its `(u32)` size, then the body. -/
def writeSection (id : Nat) (body : List Nat) : List Nat :=
  id :: (writeLEB128 (body.length % 2 ^ 32) ++ body)

/-- TYPE section body: one signature per import then per export. -/
def typeSectionBody (w : WASMWriter) : List Nat :=
  writeLEB128 (w.m_imports.length + w.m_exports.length) ++
  (w.m_imports.map (fun im =>
    [0x60, im.args.length % 256] ++ im.args.map WASMType.byte ++
    (if im.ret_type = .VOID then [0] else [1, im.ret_type.byte]))).flatten ++
  (w.m_exports.map (fun e =>
    [0x60, e.args.length % 256] ++ e.args.map WASMType.byte ++ [0])).flatten

/-- IMPORT section body: module/field names, kind `FUNCTION`, and the
positional signature index (`&import - m_imports.begin()`). -/
def importSectionBody (w : WASMWriter) : List Nat :=
  writeLEB128 w.m_imports.length ++
  (w.m_imports.enum.map (fun p =>
    wasmWriteString p.2.module_name ++ wasmWriteString p.2.field_name ++
    0 :: writeLEB128 p.1)).flatten

/-- FUNCTION section body: for each export, the signature index
`m_imports.size() + (&func - m_exports.begin())`. -/
def functionSectionBody (w : WASMWriter) : List Nat :=
  writeLEB128 w.m_exports.length ++
  ((List.range w.m_exports.length).map
    (fun k => writeLEB128 (w.m_imports.length + k))).flatten

/-- A global's zero initializer (`ASSERT(false)` on `VOID` — nothing is
written in release). -/
def globalInit : WASMType → List Nat
  | .I32 => [0x41, 0]
  | .I64 => [0x42, 0]
  | .F32 => [0x43, 0, 0, 0, 0]
  | .F64 => [0x44, 0, 0, 0, 0, 0, 0, 0, 0]
  | .VOID => []

/-- GLOBAL section body: type byte, mutable flag, zero init, `END`. -/
def globalSectionBody (w : WASMWriter) : List Nat :=
  writeLEB128 w.m_globals.length ++
  (w.m_globals.map (fun gl =>
    [gl.type.byte, 1] ++ globalInit gl.type ++ [0x0B])).flatten

/-- EXPORT section body: every export as kind `FUNCTION` (0) with index
`m_imports.size() + position`, then every global as kind `GLOBAL` (3)
with index `position`. -/
def exportSectionBody (w : WASMWriter) : List Nat :=
  writeLEB128 (w.m_exports.length + w.m_globals.length) ++
  (w.m_exports.enum.map (fun p =>
    wasmWriteString p.2.name ++ 0 :: writeLEB128 (w.m_imports.length + p.1))).flatten ++
  (w.m_globals.enum.map (fun p =>
    wasmWriteString p.2.export_name ++ 3 :: writeLEB128 p.1)).flatten

/-- The CODE section loop: generate each export's body with selector 0
into a fresh `func_blob`; per-node errors accumulate across exports. -/
def codeBodies (env : Env) (g : Graph) (fuel : Nat) :
    List Export → GenState → Option (List (List Nat) × GenState)
  | [], st => some ([], st)
  | e :: rest, st =>
    (genNode env g fuel e.node 0 { blob := [], errors := st.errors }).bind fun st1 =>
    (codeBodies env g fuel rest st1).map fun p => (st1.blob :: p.1, p.2)

/-- CODE section body: the function count, then each body with its
`(u32)` size as a LEB prefix. -/
def codeSectionBody (env : Env) (g : Graph) (fuel : Nat) (w : WASMWriter) :
    Option (List Nat) :=
  (codeBodies env g fuel w.m_exports ⟨[], []⟩).map fun p =>
    writeLEB128 w.m_exports.length ++
    (p.1.map (fun b => writeLEB128 (b.length % 2 ^ 32) ++ b)).flatten

/-- `WASMWriter::write`: the 8-byte module header (`\\0asm`, version 1)
followed by the TYPE, IMPORT, FUNCTION, GLOBAL, EXPORT and CODE sections
in that order. -/
def WASMWriter.write (env : Env) (fuel : Nat) (w : WASMWriter) (g : Graph) :
    Option (List Nat) :=
  (codeSectionBody env g fuel w).map fun code =>
    [0x00, 0x61, 0x73, 0x6D, 0x01, 0x00, 0x00, 0x00] ++
    (writeSection 1 (typeSectionBody w) ++
    (writeSection 2 (importSectionBody w) ++
    (writeSection 3 (functionSectionBody w) ++
    (writeSection 6 (globalSectionBody w) ++
    (writeSection 7 (exportSectionBody w) ++
    writeSection 10 code)))))

/-- ASCII bytes of a literal name. -/
def strBytes (s : String) : List Nat :=
  s.data.map (fun c => c.toNat)

/-- `Graph::addExport`: bind the first node of the given type, if any. -/
def Graph.addExport (g : Graph) (w : WASMWriter) (tcode : Nat) (name : List Nat)
    (args : List WASMType) : WASMWriter :=
  match g.m_nodes.find? (fun n => n.data.typeCode == tcode) with
  | none => w
  | some n => { w with m_exports := w.m_exports ++ [⟨name, n, args⟩] }

/-- The writer as configured by `Graph::generate`: the four entry-point
exports (first matching node each, in the fixed order update, mouse-move,
key-input, start), the three fixed `LumixAPI` imports, and the globals —
`self` first, then one per variable (`i32`/`float`; other variable kinds
hit `ASSERT(false)`, which in release skips the global). -/
def graphWriter (g : Graph) : WASMWriter :=
  let w1 := g.addExport ⟨[], [], []⟩ 6 (strBytes "update") [.F32]
  let w2 := g.addExport w1 5 (strBytes "onMouseMove") [.F32, .F32]
  let w3 := g.addExport w2 22 (strBytes "onKeyEvent") [.I32]
  let w4 := g.addExport w3 14 (strBytes "start") []
  { w4 with
    m_imports := [
      ⟨strBytes "LumixAPI", strBytes "setYaw", [.I32, .F32], .VOID⟩,
      ⟨strBytes "LumixAPI", strBytes "setPropertyFloat", [.I32, .I64, .F32], .VOID⟩,
      ⟨strBytes "LumixAPI", strBytes "getPropertyFloat", [.I32, .I64], .F32⟩]
    m_globals := ⟨strBytes "self", .I32⟩ ::
      g.m_variables.filterMap (fun v =>
        match v.type with
        | .I32 => some ⟨v.name, .I32⟩
        | .FLOAT => some ⟨v.name, .F32⟩
        | _ => none) }

/-- `Graph::generate`: reset diagnostics, configure the writer, write the
`ScriptResource::Header` then the module. -/
def Graph.generate (env : Env) (fuel : Nat) (g : Graph) : Option (List Nat) :=
  (WASMWriter.write env fuel (graphWriter g) g).map fun m => env.scriptHeader ++ m

/-! ### Reference parsers for the emitted module (LEB values, sections,
export entries), used to state the layout claims. -/

/-- Unsigned-LEB parse of one value (bytes with the high bit set
continue). -/
def parseLEB : List Nat → Option (Nat × List Nat)
  | [] => none
  | b :: rest =>
    if b < 128 then some (b % 128, rest)
    else (parseLEB rest).map (fun vr => (b % 128 + 128 * vr.1, vr.2))

/-- Parse `count` consecutive LEB values. -/
def parseLEBs : Nat → List Nat → Option (List Nat × List Nat)
  | 0, bytes => some ([], bytes)
  | k + 1, bytes =>
    (parseLEB bytes).bind fun vr =>
    (parseLEBs k vr.2).map fun tl => (vr.1 :: tl.1, tl.2)

/-- Split a byte stream into `(section id, body)` pairs using each
section's LEB length prefix. -/
def parseSections : Nat → List Nat → Option (List (Nat × List Nat))
  | _, [] => some []
  | 0, _ => none
  | fuel + 1, id :: rest =>
    (parseLEB rest).bind fun lr =>
    if lr.1 ≤ lr.2.length then
      (parseSections fuel (lr.2.drop lr.1)).map fun tl => (id, lr.2.take lr.1) :: tl
    else none

/-- Parse one export-section entry: LEB-prefixed name, kind byte, LEB
index. -/
def parseExportEntry (bytes : List Nat) : Option ((List Nat × Nat × Nat) × List Nat) :=
  (parseLEB bytes).bind fun lr =>
  ((lr.2.drop lr.1).head?).bind fun k =>
  (parseLEB (lr.2.drop lr.1).tail).map fun ir => ((lr.2.take lr.1, k, ir.1), ir.2)

/-- The bytes of one export-section entry `(name, kind, index)`. -/
def entryBytes (e : List Nat × Nat × Nat) : List Nat :=
  wasmWriteString e.1 ++ e.2.1 :: writeLEB128 e.2.2

/-- Parse `count` export-section entries. -/
def parseExportEntries : Nat → List Nat → Option (List (List Nat × Nat × Nat) × List Nat)
  | 0, bytes => some ([], bytes)
  | k + 1, bytes =>
    (parseExportEntry bytes).bind fun er =>
    (parseExportEntries k er.2).map fun tl => (er.1 :: tl.1, tl.2)

theorem writeLEB128Go_ne_nil (fuel val : Nat) (h : val < fuel) :
    writeLEB128Go fuel val ≠ [] := by
  cases fuel with
  | zero => omega
  | succ f =>
    unfold writeLEB128Go
    split <;> simp

theorem writeLEB128_ne_nil (n : Nat) : writeLEB128 n ≠ [] :=
  writeLEB128Go_ne_nil (n + 1) n (Nat.lt_succ_self n)

theorem lebRaw_writeLEB128Go (fuel : Nat) :
    ∀ val, val < fuel → val < 2 ^ 64 → lebRaw (writeLEB128Go fuel val) = val := by
  induction fuel with
  | zero => omega
  | succ f ih =>
    intro val h h64
    unfold writeLEB128Go
    split
    · rename_i hc
      rcases hc with ⟨h1, _⟩ | ⟨h1, h2⟩
      · simp only [lebRaw]
        omega
      · exfalso
        omega
    · rename_i hc
      have hpos : 0 < val := by
        rcases Nat.eq_zero_or_pos val with h0 | h0
        · exact absurd (Or.inl ⟨by simp [h0], by simp [h0]⟩) hc
        · exact h0
      have hlt : val / 128 < val := Nat.div_lt_self hpos (by norm_num)
      have := ih (val / 128) (by omega) (by omega)
      simp only [lebRaw, this]
      omega

/-- The emitted bytes are exactly the base-128 digits of the input
(the `val == -1` stop branch is unreachable for `u64` inputs, since after
the first `>>= 7` the value is below `2^57`). -/
theorem lebRaw_writeLEB128 (n : Nat) (hn : n < 2 ^ 64) :
    lebRaw (writeLEB128 n) = n :=
  lebRaw_writeLEB128Go (n + 1) n (Nat.lt_succ_self n) hn

theorem writeLEB128Go_last (fuel : Nat) :
    ∀ val, val < fuel → val < 2 ^ 64 →
      (writeLEB128Go fuel val).getLast?.getD 0 % 128 < 64 := by
  induction fuel with
  | zero => omega
  | succ f ih =>
    intro val h h64
    unfold writeLEB128Go
    split
    · rename_i hc
      rcases hc with ⟨h1, h2⟩ | ⟨h1, h2⟩
      · simp only [List.getLast?_singleton, Option.getD_some]
        omega
      · exfalso
        omega
    · rename_i hc
      have hpos : 0 < val := by
        rcases Nat.eq_zero_or_pos val with h0 | h0
        · exact absurd (Or.inl ⟨by simp [h0], by simp [h0]⟩) hc
        · exact h0
      have hlt : val / 128 < val := Nat.div_lt_self hpos (by norm_num)
      have htl := ih (val / 128) (by omega) (by omega)
      have hne := writeLEB128Go_ne_nil f (val / 128) (by omega)
      cases hl : writeLEB128Go f (val / 128) with
      | nil => exact absurd hl hne
      | cons b t =>
        rw [hl] at htl
        simpa [List.getLast?_cons_cons] using htl

/-- The last emitted byte always has its sign bit (`0x40`) clear: the
encoder only stops on the `val == 0 && (byte & 0x40) == 0` branch. -/
theorem writeLEB128_last (n : Nat) (hn : n < 2 ^ 64) :
    (writeLEB128 n).getLast?.getD 0 % 128 < 64 :=
  writeLEB128Go_last (n + 1) n (Nat.lt_succ_self n) hn

/-- C1: decoding the output of `writeLEB128` applied to the 64-bit
two's-complement representation of any representable signed value `v`
(including `0`, `-1`, `Int64` min and max) with the canonical signed-LEB128
reference decoder yields `v` again. -/
theorem leb128_roundtrip (v : Int) (h1 : -(2 ^ 63) ≤ v) (h2 : v < 2 ^ 63) :
    slebReferenceDecode (writeLEB128 ((v % 2 ^ 64).toNat)) = v := by
  have hn64 : (v % 2 ^ 64).toNat < 2 ^ 64 := by omega
  have hraw := lebRaw_writeLEB128 _ hn64
  have hlast := writeLEB128_last _ hn64
  unfold slebReferenceDecode
  rw [if_neg (fun hc => absurd hc.2 (by omega)), hraw,
    Nat.mod_eq_of_lt hn64]
  unfold toInt64
  split <;> omega

/-- C1 witness: the round-trip holds at the boundary value `-1`. -/
theorem leb128_roundtrip_witness :
    slebReferenceDecode (writeLEB128 (((-1 : Int) % 2 ^ 64).toNat)) = -1 :=
  leb128_roundtrip (-1) (by norm_num) (by norm_num)

/-! ## Node identifiers (C4) and node removal (C7) -/

theorem addCount_cons_add (d : NodeData) (p : Nat × Nat) (rest : List GraphOp) :
    addCount (.add d p :: rest) = addCount rest + 1 := by
  simp [addCount, List.countP_cons]

theorem addCount_cons_remove (i : Nat) (rest : List GraphOp) :
    addCount (.remove i :: rest) = addCount rest := by
  simp [addCount, List.countP_cons]

theorem removeNode_counter (g : Graph) (i : Nat) :
    (g.removeNode i).m_node_counter = g.m_node_counter := by
  unfold Graph.removeNode
  cases g.m_nodes[i]? <;> rfl

theorem removeNode_nodes_sublist (g : Graph) (i : Nat) :
    (g.removeNode i).m_nodes.Sublist g.m_nodes := by
  unfold Graph.removeNode
  cases g.m_nodes[i]? with
  | none => exact List.Sublist.refl _
  | some n => exact List.eraseIdx_sublist _ i

/-- Identifier invariant: after any addition/removal sequence, the counter
has advanced by the number of additions, every node id is bounded by the
counter, and ids are pairwise distinct (as long as the `u32` counter does
not wrap). -/
theorem applyOps_invariant (ops : List GraphOp) :
    ∀ g : Graph,
      g.m_node_counter + addCount ops < 2 ^ 32 →
      (∀ n ∈ g.m_nodes, n.m_id ≤ g.m_node_counter) →
      g.m_nodes.Pairwise (fun a b => a.m_id ≠ b.m_id) →
      (applyOps g ops).m_node_counter = g.m_node_counter + addCount ops ∧
      (∀ n ∈ (applyOps g ops).m_nodes, n.m_id ≤ (applyOps g ops).m_node_counter) ∧
      (applyOps g ops).m_nodes.Pairwise (fun a b => a.m_id ≠ b.m_id) := by
  induction ops with
  | nil =>
    intro g h1 h2 h3
    exact ⟨by simp [applyOps, addCount], by simpa [applyOps] using h2,
      by simpa [applyOps] using h3⟩
  | cons op rest ih =>
    intro g h1 h2 h3
    cases op with
    | add d p =>
      rw [addCount_cons_add] at h1
      have hnowrap : g.m_node_counter + 1 < 2 ^ 32 := by omega
      have hc : (g.addNode d p).m_node_counter = g.m_node_counter + 1 := by
        unfold Graph.addNode
        simp only
        omega
      have hid : ∀ n ∈ (g.addNode d p).m_nodes, n.m_id ≤ (g.addNode d p).m_node_counter := by
        intro n hn
        unfold Graph.addNode at hn
        simp only [List.mem_append, List.mem_singleton] at hn
        rw [hc]
        rcases hn with hn | hn
        · exact le_trans (h2 n hn) (Nat.le_succ _)
        · subst hn
          simp only
          omega
      have hpw : (g.addNode d p).m_nodes.Pairwise (fun a b => a.m_id ≠ b.m_id) := by
        unfold Graph.addNode
        simp only
        rw [List.pairwise_append]
        refine ⟨h3, List.pairwise_singleton _ _, ?_⟩
        intro a ha b hb
        simp only [List.mem_singleton] at hb
        subst hb
        have := h2 a ha
        simp only
        omega
      have := ih (g.addNode d p) (by rw [hc]; omega) hid hpw
      simp only [applyOps]
      rw [addCount_cons_add]
      refine ⟨by rw [this.1, hc]; ring, this.2.1, this.2.2⟩
    | remove i =>
      have hc := removeNode_counter g i
      have hsub := removeNode_nodes_sublist g i
      have hid : ∀ n ∈ (g.removeNode i).m_nodes, n.m_id ≤ (g.removeNode i).m_node_counter := by
        intro n hn
        rw [hc]
        exact h2 n (hsub.subset hn)
      have hpw := h3.sublist hsub
      have := ih (g.removeNode i) (by rw [hc, ← addCount_cons_remove i rest]; omega) hid hpw
      simp only [applyOps]
      rw [addCount_cons_remove]
      exact ⟨by rw [this.1, hc], this.2.1, this.2.2⟩

/-- C4 (amended): for every graph reachable from the empty graph by
additions and removals, node identifiers are pairwise distinct, and they
fit in 15 bits provided the sequence performs at most 32767 additions
(the code enforces no cap itself). -/
theorem node_ids_unique_15bit (ops : List GraphOp) (hadds : addCount ops ≤ 32767) :
    (applyOps emptyGraph ops).m_nodes.Pairwise (fun a b => a.m_id ≠ b.m_id) ∧
    ∀ n ∈ (applyOps emptyGraph ops).m_nodes, n.m_id ≤ 32767 := by
  have h := applyOps_invariant ops emptyGraph
    (by simp only [emptyGraph]; omega) (by simp [emptyGraph]) (by simp [emptyGraph])
  refine ⟨h.2.2, fun n hn => ?_⟩
  have hb := h.2.1 n hn
  rw [h.1] at hb
  simp only [emptyGraph] at hb
  omega

/-- C4 witness: a concrete add/add/remove sequence. -/
theorem node_ids_unique_15bit_witness :
    (applyOps emptyGraph [.add .start (0, 0), .add .update (0, 0), .remove 0]).m_nodes.Pairwise
      (fun a b => a.m_id ≠ b.m_id) ∧
    ∀ n ∈ (applyOps emptyGraph [.add .start (0, 0), .add .update (0, 0), .remove 0]).m_nodes,
      n.m_id ≤ 32767 :=
  node_ids_unique_15bit [.add .start (0, 0), .add .update (0, 0), .remove 0] (by decide)

theorem mem_applyOps_replicate_add (d : NodeData) (p : Nat × Nat) :
    ∀ (k : Nat) (g : Graph), g.m_node_counter + k + 1 < 2 ^ 32 →
      ∃ n ∈ (applyOps g (List.replicate (k + 1) (GraphOp.add d p))).m_nodes,
        n.m_id = g.m_node_counter + k + 1 := by
  intro k
  induction k with
  | zero =>
    intro g hg
    simp only [List.replicate_succ, List.replicate_zero, applyOps]
    unfold Graph.addNode
    refine ⟨_, List.mem_append_right _ (List.mem_singleton_self _), ?_⟩
    simp only
    omega
  | succ k ih =>
    intro g hg
    rw [List.replicate_succ]
    simp only [applyOps]
    have hc : (g.addNode d p).m_node_counter = g.m_node_counter + 1 := by
      unfold Graph.addNode
      simp only
      omega
    obtain ⟨n, hn, hid⟩ := ih (g.addNode d p) (by rw [hc]; omega)
    exact ⟨n, hn, by rw [hid, hc]; ring⟩

/-- C4 counterexample: the claim as stated is false — a sequence of 32768
plain additions produces a node whose identifier 32768 does not fit in
15 bits (`addNode` enforces no 32767 cap). -/
theorem node_id_overflow :
    ∃ n ∈ (applyOps emptyGraph (List.replicate 32768 (GraphOp.add .start (0, 0)))).m_nodes,
      32767 < n.m_id := by
  have h := mem_applyOps_replicate_add .start (0, 0) 32767 emptyGraph
    (by simp [emptyGraph])
  norm_num [emptyGraph] at h
  obtain ⟨n, hn, hid⟩ := h
  exact ⟨n, hn, by omega⟩

/-- C7: `removeNode` deletes exactly the links with an endpoint on the
removed node (masked node-id comparison), erases exactly that node, and
leaves variables and the id counter untouched; in particular on the
`{A,B,C}` graph with links `A→B`, `B→C`, `A→C`, removing `B` leaves the
node list `[A, C]` and exactly the link `A→C`. -/
theorem removeNode_exact (g : Graph) (i : Nat) (hi : i < g.m_nodes.length) :
    (g.removeNode i).m_variables = g.m_variables ∧
    (g.removeNode i).m_node_counter = g.m_node_counter ∧
    (g.removeNode i).m_nodes = g.m_nodes.take i ++ g.m_nodes.drop (i + 1) ∧
    (∀ l, l ∈ (g.removeNode i).m_links ↔
      l ∈ g.m_links ∧
        ¬(l.from_ % 32768 = (g.m_nodes.get ⟨i, hi⟩).m_id ∨
          l.to_ % 32768 = (g.m_nodes.get ⟨i, hi⟩).m_id)) ∧
    (abcGraph.removeNode 1).m_nodes.map Node.m_id = [1, 3] ∧
    (abcGraph.removeNode 1).m_links = [⟨1, 3⟩] := by
  have hsome : g.m_nodes[i]? = some (g.m_nodes.get ⟨i, hi⟩) := by
    rw [List.getElem?_eq_getElem hi]
    rfl
  unfold Graph.removeNode
  rw [hsome]
  refine ⟨rfl, rfl, by simpa using List.eraseIdx_eq_take_drop_succ g.m_nodes i, ?_,
    by decide, by decide⟩
  intro l
  simp only [List.mem_filter, Bool.not_eq_eq_eq_not, Bool.not_true, Bool.or_eq_false_iff,
    beq_eq_false_iff_ne, ne_eq, not_or]

/-- C7 witness: the general characterization applied to the `{A,B,C}`
example graph at index 1 (node `B`). -/
theorem removeNode_exact_witness :
    (abcGraph.removeNode 1).m_variables = abcGraph.m_variables ∧
    (abcGraph.removeNode 1).m_nodes =
      abcGraph.m_nodes.take 1 ++ abcGraph.m_nodes.drop 2 := by
  have h := removeNode_exact abcGraph 1 (by decide)
  exact ⟨h.1, h.2.2.1⟩

/-! ## Persistence round trip (C5) and fail-closed loading (C6) -/

theorem readU32_u32le (n : Nat) (rest : List Nat) :
    readU32 (u32le n ++ rest) = some (n % 2 ^ 32, rest) := by
  simp only [u32le, List.cons_append, List.nil_append, readU32]
  congr 1
  congr 1
  omega

theorem readU32_u32le_lt (n : Nat) (rest : List Nat) (h : n < 2 ^ 32) :
    readU32 (u32le n ++ rest) = some (n, rest) := by
  rw [readU32_u32le, Nat.mod_eq_of_lt h]

theorem readString_append (s : List Nat) (rest : List Nat) (h : (0 : Nat) ∉ s) :
    readString (s ++ 0 :: rest) = some (s, rest) := by
  induction s with
  | nil => simp [readString]
  | cons b t ih =>
    have hb : b ≠ 0 := fun hb => h (hb ▸ List.mem_cons_self b t)
    have ht : (0 : Nat) ∉ t := fun hm => h (List.mem_cons_of_mem b hm)
    simp [readString, hb, ih ht]

theorem ofCode_code (t : ScriptValueType) : ScriptValueType.ofCode t.code = some t := by
  cases t <;> rfl

/-- Payload round trip: under `payloadGood`, every node type's payload
serializes and deserializes back to itself, consuming exactly its bytes. -/
theorem nodeDeser_nodeSer (env : Env) (d : NodeData) (h : payloadGood env d) :
    ∃ pb, nodeSer env d = some pb ∧
      ∀ rest, nodeDeser env d.typeCode (pb ++ rest) = some (d, rest) := by
  cases d with
  | add => exact ⟨[], rfl, fun rest => rfl⟩
  | sequence => exact ⟨[], rfl, fun rest => rfl⟩
  | selfNode => exact ⟨[], rfl, fun rest => rfl⟩
  | setYaw => exact ⟨[], rfl, fun rest => rfl⟩
  | mouseMove => exact ⟨[], rfl, fun rest => rfl⟩
  | update => exact ⟨[], rfl, fun rest => rfl⟩
  | mul => exact ⟨[], rfl, fun rest => rfl⟩
  | vec3 => exact ⟨[], rfl, fun rest => rfl⟩
  | yawToDir => exact ⟨[], rfl, fun rest => rfl⟩
  | start => exact ⟨[], rfl, fun rest => rfl⟩
  | ifNode => exact ⟨[], rfl, fun rest => rfl⟩
  | keyInput => exact ⟨[], rfl, fun rest => rfl⟩
  | cmp op => cases op <;> exact ⟨[], rfl, fun rest => rfl⟩
  | constNode v =>
    refine ⟨u32le v, rfl, fun rest => ?_⟩
    simp [nodeDeser, NodeData.typeCode, readU32_u32le_lt v rest h]
  | getVariable v =>
    refine ⟨u32le v, rfl, fun rest => ?_⟩
    simp [nodeDeser, NodeData.typeCode, readU32_u32le_lt v rest h]
  | setVariable v =>
    refine ⟨u32le v, rfl, fun rest => ?_⟩
    simp [nodeDeser, NodeData.typeCode, readU32_u32le_lt v rest h]
  | switchNode b =>
    refine ⟨[if b then 1 else 0], rfl, fun rest => ?_⟩
    cases b <;> simp [nodeDeser, NodeData.typeCode]
  | call cname fname =>
    obtain ⟨hnul, funcs, hcomp, hmem⟩ := h
    refine ⟨u32le (env.nameHash cname) ++ fname ++ [0], rfl, fun rest => ?_⟩
    simp only [nodeDeser, NodeData.typeCode, List.append_assoc, List.cons_append,
      List.nil_append, Option.bind_eq_bind]
    rw [readU32_u32le]
    simp only [Option.some_bind]
    rw [readString_append fname rest hnul]
    rw [show (2 : Nat) ^ 32 = 4294967296 by norm_num] at hcomp
    simp [hcomp, hmem]
  | getProperty prop ct =>
    obtain ⟨hlen, hnul, cname, hty, hcn, hback⟩ := h
    refine ⟨prop ++ [0] ++ cname ++ [0], by simp [nodeSer, hty], fun rest => ?_⟩
    simp only [nodeDeser, NodeData.typeCode, List.append_assoc, List.cons_append,
      List.nil_append, Option.bind_eq_bind]
    rw [readString_append prop _ hnul]
    simp only [Option.some_bind]
    rw [readString_append cname rest hcn]
    simp [List.take_of_length_le hlen, hback]
  | setProperty prop v ct =>
    obtain ⟨hlen, hnul, hvlen, hvnul, cname, hty, hcn, hback⟩ := h
    refine ⟨prop ++ [0] ++ v ++ [0] ++ cname ++ [0], by simp [nodeSer, hty],
      fun rest => ?_⟩
    simp only [nodeDeser, NodeData.typeCode, List.append_assoc, List.cons_append,
      List.nil_append, Option.bind_eq_bind]
    rw [readString_append prop _ hnul]
    simp only [Option.some_bind]
    rw [readString_append v _ hvnul]
    simp only [Option.some_bind]
    rw [readString_append cname rest hcn]
    simp [List.take_of_length_le hlen, List.take_of_length_le hvlen, hback]

theorem code_lt (t : ScriptValueType) : t.code < 2 ^ 32 := by
  cases t <;> simp [ScriptValueType.code]

theorem typeCode_lt (d : NodeData) : d.typeCode < 2 ^ 32 := by
  cases d with
  | cmp op => cases op <;> simp [NodeData.typeCode]
  | _ => simp [NodeData.typeCode]

theorem readVars_roundtrip (vars : List Variable) (rest : List Nat)
    (h : ∀ v ∈ vars, (0 : Nat) ∉ v.name) :
    readVars vars.length
      ((vars.map (fun v => v.name ++ [0] ++ u32le v.type.code)).flatten ++ rest) =
      some (vars, rest) := by
  induction vars with
  | nil => simp [readVars]
  | cons v t ih =>
    have ih2 := ih (fun w hw => h w (List.mem_cons_of_mem v hw))
    simp only [List.map_cons, List.flatten_cons, List.length_cons, List.append_assoc,
      List.cons_append, List.nil_append, readVars, Option.bind_eq_bind] at ih2 ⊢
    rw [readString_append v.name _ (h v (List.mem_cons_self v t))]
    simp only [Option.some_bind]
    rw [readU32_u32le_lt _ _ (code_lt v.type)]
    simp only [Option.some_bind, ofCode_code]
    rw [ih2]
    rfl

theorem readLinks_roundtrip (links : List NodeEditorLink) (rest : List Nat)
    (h : ∀ l ∈ links, l.from_ < 2 ^ 32 ∧ l.to_ < 2 ^ 32) :
    readLinks links.length
      ((links.map (fun l => u32le l.from_ ++ u32le l.to_)).flatten ++ rest) =
      some (links, rest) := by
  induction links with
  | nil => simp [readLinks]
  | cons l t ih =>
    simp only [List.map_cons, List.flatten_cons, List.length_cons, List.append_assoc,
      readLinks, Option.bind_eq_bind]
    rw [readU32_u32le_lt _ _ (h l (List.mem_cons_self l t)).1]
    simp only [Option.some_bind]
    rw [readU32_u32le_lt _ _ (h l (List.mem_cons_self l t)).2]
    simp only [Option.some_bind]
    rw [ih (fun w hw => h w (List.mem_cons_of_mem l hw))]
    rfl

theorem readNodes_roundtrip (env : Env) (nodes : List Node)
    (h : ∀ n ∈ nodes, n.m_id < 2 ^ 32 ∧ n.m_pos.1 < 2 ^ 32 ∧ n.m_pos.2 < 2 ^ 32 ∧
      payloadGood env n.data) :
    ∃ blobs, nodes.mapM (fun n => (nodeSer env n.data).map (fun pb =>
        u32le n.data.typeCode ++ u32le n.m_id ++ u32le n.m_pos.1 ++ u32le n.m_pos.2 ++ pb)) =
        some blobs ∧
      ∀ rest, readNodes env nodes.length (blobs.flatten ++ rest) = some (nodes, rest) := by
  induction nodes with
  | nil => exact ⟨[], rfl, fun rest => by simp [readNodes]⟩
  | cons n t ih =>
    obtain ⟨hid, hx, hy, hpg⟩ := h n (List.mem_cons_self n t)
    obtain ⟨pb, hser, hdes⟩ := nodeDeser_nodeSer env n.data hpg
    obtain ⟨blobs, hmap, hread⟩ := ih (fun w hw => h w (List.mem_cons_of_mem n hw))
    refine ⟨(u32le n.data.typeCode ++ u32le n.m_id ++ u32le n.m_pos.1 ++
        u32le n.m_pos.2 ++ pb) :: blobs, ?_, fun rest => ?_⟩
    · rw [List.mapM_cons, hser, hmap]
      rfl
    · simp only [List.flatten_cons, List.length_cons, List.append_assoc, readNodes,
        Option.bind_eq_bind]
      rw [readU32_u32le_lt _ _ (typeCode_lt n.data)]
      simp only [Option.some_bind]
      rw [readU32_u32le_lt _ _ hid]
      simp only [Option.some_bind]
      rw [readU32_u32le_lt _ _ hx]
      simp only [Option.some_bind]
      rw [readU32_u32le_lt _ _ hy]
      simp only [Option.some_bind]
      rw [hdes (blobs.flatten ++ rest)]
      simp only [Option.some_bind]
      rw [hread rest]
      rfl

/-- The success path of `Graph::deserialize`, characterized over abstract
intermediate streams: when every read succeeds (magic matching, version 0),
the result appends the read lists onto the graph and overwrites the id
counter. -/
theorem deserialize_success (env : Env) (g : Graph)
    (bytes r1 r2 r3 r4 r5 r6 r7 r8 r9 : List Nat)
    (c vc lc nc : Nat) (vars : List Variable) (links : List NodeEditorLink)
    (nodes : List Node)
    (h1 : readU32 bytes = some (MAGIC, r1))
    (h2 : readU32 r1 = some (0, r2))
    (h3 : readU32 r2 = some (c, r3))
    (h4 : readU32 r3 = some (vc, r4))
    (h5 : readVars vc r4 = some (vars, r5))
    (h6 : readU32 r5 = some (lc, r6))
    (h7 : readLinks lc r6 = some (links, r7))
    (h8 : readU32 r7 = some (nc, r8))
    (h9 : readNodes env nc r8 = some (nodes, r9)) :
    Graph.deserialize env g bytes = some (true,
      { m_nodes := g.m_nodes ++ nodes
        m_links := g.m_links ++ links
        m_variables := g.m_variables ++ vars
        m_node_counter := (c + nc) % 2 ^ 32 }) := by
  unfold Graph.deserialize
  rw [h1, Option.some_bind]
  simp only []
  rw [if_neg (fun hh => hh rfl), h2, Option.some_bind]
  simp only []
  rw [if_neg (fun hh => hh rfl), h3, Option.some_bind]
  simp only []
  rw [h4, Option.some_bind]
  simp only []
  rw [h5, Option.some_bind]
  simp only []
  rw [h6, Option.some_bind]
  simp only []
  rw [h7, Option.some_bind]
  simp only []
  rw [h8, Option.some_bind]
  simp only []
  rw [h9, Option.some_bind]

/-- C5 counterexample: on the concrete one-node graph `wgraph` (stored
counter 1), deserializing the serialized bytes succeeds but yields a
graph whose counter is 2 — the node-reading loop's `createNode` call
pre-increments the counter once per node after the stored value was read
— so re-serializing the result does **not** reproduce the original
bytes (they differ in the counter field). -/
theorem deserialize_counter_drift :
    ∃ bytes g1, Graph.serialize env0 wgraph = some bytes ∧
      Graph.deserialize env0 emptyGraph bytes = some (true, g1) ∧
      wgraph.m_node_counter = 1 ∧ g1.m_node_counter = 2 ∧
      Graph.serialize env0 g1 ≠ some bytes := by
  refine ⟨(Graph.serialize env0 wgraph).getD [], { wgraph with m_node_counter := 2 },
    by decide, by decide, rfl, rfl, by decide⟩

/-- C5 (amended): for every graph whose node payloads round-trip (and
whose `u32` fields are in range / strings NUL-free, as the C++ types
guarantee), deserializing the bytes of `Graph::serialize` succeeds and
reproduces the identical node list (types, ids, positions, payloads),
link list and variable list, but the id counter ends at
`stored + node count` (u32 wrap): the node-reading loop's `createNode`
pre-increments it once per node after the stored value was read.
Re-serializing hence reproduces the same bytes except that the 4-byte
counter field carries the inflated value — byte-for-byte identity holds
exactly for node-less graphs. -/
theorem serialize_deserialize_roundtrip (env : Env) (g : Graph) (hwf : g.wf env) :
    ∃ rest,
      Graph.serialize env g =
        some (u32le MAGIC ++ (u32le 0 ++ (u32le g.m_node_counter ++ rest))) ∧
      Graph.deserialize env emptyGraph
          (u32le MAGIC ++ (u32le 0 ++ (u32le g.m_node_counter ++ rest))) =
        some (true, { g with
          m_node_counter := (g.m_node_counter + g.m_nodes.length) % 2 ^ 32 }) ∧
      Graph.serialize env { g with
          m_node_counter := (g.m_node_counter + g.m_nodes.length) % 2 ^ 32 } =
        some (u32le MAGIC ++ (u32le 0 ++
          (u32le ((g.m_node_counter + g.m_nodes.length) % 2 ^ 32) ++ rest))) := by
  obtain ⟨hc, hvl, hll, hnl, hvn, hlk, hnd⟩ := hwf
  obtain ⟨blobs, hmap, hread⟩ := readNodes_roundtrip env g.m_nodes hnd
  have hrd := hread []
  rw [List.append_nil] at hrd
  have hser : Graph.serialize env g = some (u32le MAGIC ++ (u32le 0 ++
      (u32le g.m_node_counter ++ (u32le g.m_variables.length ++
      ((g.m_variables.map (fun v => v.name ++ [0] ++ u32le v.type.code)).flatten ++
      (u32le g.m_links.length ++
      ((g.m_links.map (fun l => u32le l.from_ ++ u32le l.to_)).flatten ++
      (u32le g.m_nodes.length ++ blobs.flatten)))))))) := by
    unfold Graph.serialize
    rw [hmap]
    simp [List.append_assoc]
  have hser2 : Graph.serialize env { g with
      m_node_counter := (g.m_node_counter + g.m_nodes.length) % 2 ^ 32 } =
      some (u32le MAGIC ++ (u32le 0 ++
      (u32le ((g.m_node_counter + g.m_nodes.length) % 2 ^ 32) ++
      (u32le g.m_variables.length ++
      ((g.m_variables.map (fun v => v.name ++ [0] ++ u32le v.type.code)).flatten ++
      (u32le g.m_links.length ++
      ((g.m_links.map (fun l => u32le l.from_ ++ u32le l.to_)).flatten ++
      (u32le g.m_nodes.length ++ blobs.flatten)))))))) := by
    unfold Graph.serialize
    rw [show ({ g with
      m_node_counter := (g.m_node_counter + g.m_nodes.length) % 2 ^ 32 } : Graph).m_nodes =
      g.m_nodes from rfl, hmap]
    simp [List.append_assoc]
  have hdes := deserialize_success env emptyGraph _ _ _ _ _ _ _ _ _ _ _ _ _ _
    g.m_variables g.m_links g.m_nodes
    (readU32_u32le_lt MAGIC _ (by norm_num [MAGIC]))
    (readU32_u32le_lt 0 _ (by norm_num))
    (readU32_u32le_lt g.m_node_counter _ hc)
    (readU32_u32le_lt g.m_variables.length _ hvl)
    (readVars_roundtrip g.m_variables _ hvn)
    (readU32_u32le_lt g.m_links.length _ hll)
    (readLinks_roundtrip g.m_links _ hlk)
    (readU32_u32le_lt g.m_nodes.length _ hnl)
    hrd
  have hdes2 : Graph.deserialize env emptyGraph (u32le MAGIC ++ (u32le 0 ++
      (u32le g.m_node_counter ++ (u32le g.m_variables.length ++
      ((g.m_variables.map (fun v => v.name ++ [0] ++ u32le v.type.code)).flatten ++
      (u32le g.m_links.length ++
      ((g.m_links.map (fun l => u32le l.from_ ++ u32le l.to_)).flatten ++
      (u32le g.m_nodes.length ++ blobs.flatten)))))))) = some (true, { g with
        m_node_counter := (g.m_node_counter + g.m_nodes.length) % 2 ^ 32 }) := hdes
  exact ⟨_, hser, hdes2, hser2⟩

/-- C5 witness: the amended round trip at a concrete one-node graph
(stored counter 1, reloaded counter 2). -/
theorem serialize_deserialize_roundtrip_witness :
    ∃ rest,
      Graph.serialize env0 wgraph =
        some (u32le MAGIC ++ (u32le 0 ++ (u32le wgraph.m_node_counter ++ rest))) ∧
      Graph.deserialize env0 emptyGraph
          (u32le MAGIC ++ (u32le 0 ++ (u32le wgraph.m_node_counter ++ rest))) =
        some (true, { wgraph with
          m_node_counter := (wgraph.m_node_counter + wgraph.m_nodes.length) % 2 ^ 32 }) ∧
      Graph.serialize env0 { wgraph with
          m_node_counter := (wgraph.m_node_counter + wgraph.m_nodes.length) % 2 ^ 32 } =
        some (u32le MAGIC ++ (u32le 0 ++
          (u32le ((wgraph.m_node_counter + wgraph.m_nodes.length) % 2 ^ 32) ++ rest))) :=
  serialize_deserialize_roundtrip env0 wgraph
    (by
      refine ⟨by norm_num [wgraph], by norm_num [wgraph], by norm_num [wgraph],
        by norm_num [wgraph], ?_, ?_, ?_⟩
      · intro v hv
        simp only [wgraph, List.mem_singleton] at hv
        subst hv
        decide
      · intro l hl
        simp only [wgraph, List.mem_singleton] at hl
        subst hl
        norm_num
      · intro n hn
        simp only [wgraph, List.mem_singleton] at hn
        subst hn
        exact ⟨by norm_num, by norm_num, by norm_num, by norm_num [payloadGood]⟩)

/-- C6: `Graph::deserialize` fails closed — if the leading magic differs
from `'_LVS'`, or the magic matches but the version differs from 0, it
returns `false` with the graph's node, link and variable lists and its
id counter completely untouched (both checks precede the first mutation
of the graph). -/
theorem deserialize_fails_closed (env : Env) (g : Graph) (bytes r1 : List Nat)
    (m : Nat) (hm : readU32 bytes = some (m, r1)) :
    (m ≠ MAGIC → Graph.deserialize env g bytes = some (false, g)) ∧
    (∀ v r2, m = MAGIC → readU32 r1 = some (v, r2) → v ≠ 0 →
      Graph.deserialize env g bytes = some (false, g)) := by
  constructor
  · intro hne
    unfold Graph.deserialize
    rw [hm, Option.some_bind]
    simp only []
    rw [if_pos hne]
  · intro v r2 hmm hv hvne
    subst hmm
    unfold Graph.deserialize
    rw [hm, Option.some_bind]
    simp only []
    rw [if_neg (fun hh => hh rfl), hv, Option.some_bind]
    simp only []
    rw [if_pos hvne]

/-- C6 witness: an all-zero 8-byte stream (magic 0) fails on a non-empty
graph without touching it; a good-magic, version-1 stream likewise. -/
theorem deserialize_fails_closed_witness :
    Graph.deserialize env0 abcGraph [0, 0, 0, 0, 0, 0, 0, 0] = some (false, abcGraph) ∧
    Graph.deserialize env0 abcGraph
      (u32le MAGIC ++ [1, 0, 0, 0]) = some (false, abcGraph) := by
  constructor
  · exact (deserialize_fails_closed env0 abcGraph [0, 0, 0, 0, 0, 0, 0, 0]
      [0, 0, 0, 0] 0 (by decide)).1 (by norm_num [MAGIC])
  · exact (deserialize_fails_closed env0 abcGraph _ [1, 0, 0, 0] MAGIC
      (by rw [readU32_u32le_lt _ _ (by norm_num [MAGIC])])).2 1 [] rfl rfl
      (by norm_num)

/-! ## Binary-operator type mismatch (C2), entry-node bodies (C3),
statement nodes with missing inputs (C9), variable reads (C10) -/

/-- C2 counterexample: on the concrete mismatch graph (`float` constant
vs `i32` variable feeding an `EQ` compare), the node records "Types do
not match" but emits only the two operands — no comparison opcode of
either family (`F32_EQ = 0x5B`, `I32_EQ = 0x46`) is appended, contrary to
the claim that an operator from the left family is still emitted. -/
theorem cmp_mismatch_no_opcode :
    genNode env0 g2x 10 ⟨3, (0, 0), .cmp .EQ⟩ 0 ⟨[], []⟩ =
      some ⟨[0x43, 0x00, 0x00, 0x20, 0x40, 0x23, 0x01],
        [(3, "Types do not match")]⟩ ∧
    (0x5B : Nat) ∉ [0x43, 0x00, 0x00, 0x20, 0x40, 0x23, 0x01] ∧
    (0x46 : Nat) ∉ [0x43, 0x00, 0x00, 0x20, 0x40, 0x23, 0x01] := by
  refine ⟨by decide, by decide, by decide⟩

theorem genNode_cmp (env : Env) (g : Graph) (fuel : Nat) (n : Node) (op : CmpOp)
    (oidx : Nat) (st : GenState) (hd : n.data = .cmp op) :
    genNode env g (fuel + 1) n oidx st =
      genCmp (genNode env g fuel) (getOutputType g fuel) op g n st := by
  obtain ⟨nid, npos, ndata⟩ := n
  change ndata = _ at hd
  subst hd
  rfl

theorem genNode_add (env : Env) (g : Graph) (fuel : Nat) (n : Node)
    (oidx : Nat) (st : GenState) (hd : n.data = .add) :
    genNode env g (fuel + 1) n oidx st =
      genArith (genNode env g fuel) (getOutputType g fuel) 0x92 0x6A g n st := by
  obtain ⟨nid, npos, ndata⟩ := n
  change ndata = _ at hd
  subst hd
  rfl

theorem genNode_mul (env : Env) (g : Graph) (fuel : Nat) (n : Node)
    (oidx : Nat) (st : GenState) (hd : n.data = .mul) :
    genNode env g (fuel + 1) n oidx st =
      genArith (genNode env g fuel) (getOutputType g fuel) 0x94 0x6C g n st := by
  obtain ⟨nid, npos, ndata⟩ := n
  change ndata = _ at hd
  subst hd
  rfl

theorem genNode_setYaw (env : Env) (g : Graph) (fuel : Nat) (n : Node)
    (oidx : Nat) (st : GenState) (hd : n.data = .setYaw) :
    genNode env g (fuel + 1) n oidx st = genSetYaw (genNode env g fuel) g n st := by
  obtain ⟨nid, npos, ndata⟩ := n
  change ndata = _ at hd
  subst hd
  rfl

theorem genNode_setVariable (env : Env) (g : Graph) (fuel : Nat) (n : Node)
    (v oidx : Nat) (st : GenState) (hd : n.data = .setVariable v) :
    genNode env g (fuel + 1) n oidx st =
      genSetVariable (genNode env g fuel) v g n st := by
  obtain ⟨nid, npos, ndata⟩ := n
  change ndata = _ at hd
  subst hd
  rfl

theorem getOutputType_getVariable (g : Graph) (fuel : Nat) (n : Node)
    (v idx : Nat) (hd : n.data = .getVariable v) :
    getOutputType g (fuel + 1) n idx = (g.m_variables[v]?).map (fun w => w.type) := by
  obtain ⟨nid, npos, ndata⟩ := n
  change ndata = _ at hd
  subst hd
  rfl

/-- C2 (amended): with both value inputs connected and operand types
disagreeing, a comparison node records the non-empty diagnostic
"Types do not match" and returns **without** appending any operator
opcode (the output is exactly the two operands' code), while the
arithmetic nodes (`add` and `mul`) perform no type check at all: each
records no diagnostic and appends the operator of the left operand's
type family (`F32_ADD`/`I32_ADD`, `F32_MUL`/`I32_MUL`). -/
theorem binary_mismatch_behavior (env : Env) (g : Graph) (fuel : Nat)
    (n a b : Node) (ai bi : Nat) (st st1 st2 : GenState)
    (tA tB : ScriptValueType)
    (ha : n.getInputNode 0 g = some (a, ai)) (hb : n.getInputNode 1 g = some (b, bi))
    (hga : genNode env g fuel a ai st = some st1)
    (hgb : genNode env g fuel b bi st1 = some st2)
    (hta : getOutputType g fuel a ai = some tA)
    (htb : getOutputType g fuel b bi = some tB)
    (hne : tA ≠ tB) :
    (∀ op, n.data = .cmp op →
      genNode env g (fuel + 1) n 0 st =
        some (setError st2 n.m_id "Types do not match")) ∧
    (n.data = .add →
      genNode env g (fuel + 1) n 0 st =
        some (if tA = .FLOAT then emit st2 [0x92] else emit st2 [0x6A])) ∧
    (n.data = .mul →
      genNode env g (fuel + 1) n 0 st =
        some (if tA = .FLOAT then emit st2 [0x94] else emit st2 [0x6C])) := by
  refine ⟨?_, ?_, ?_⟩
  · intro op hop
    rw [genNode_cmp env g fuel n op 0 st hop]
    unfold genCmp
    rw [ha, hb]
    simp only [hga, Option.some_bind, hgb, hta, htb]
    rw [if_pos hne]
  · intro hop
    rw [genNode_add env g fuel n 0 st hop]
    unfold genArith
    rw [ha, hb]
    simp only [hga, Option.some_bind, hgb, hta, Option.map_some']
  · intro hop
    rw [genNode_mul env g fuel n 0 st hop]
    unfold genArith
    rw [ha, hb]
    simp only [hga, Option.some_bind, hgb, hta, Option.map_some']

/-- C2 witness: the amended behaviour at the concrete mismatch graph. -/
theorem binary_mismatch_behavior_witness :
    genNode env0 g2x 10 ⟨3, (0, 0), .cmp .EQ⟩ 0 ⟨[], []⟩ =
      some (setError ⟨[0x43, 0x00, 0x00, 0x20, 0x40, 0x23, 0x01], []⟩ 3
        "Types do not match") ∧
    genNode env0 g2x 10 ⟨3, (0, 0), .add⟩ 0 ⟨[], []⟩ =
      some (emit ⟨[0x43, 0x00, 0x00, 0x20, 0x40, 0x23, 0x01], []⟩ [0x92]) ∧
    genNode env0 g2x 10 ⟨3, (0, 0), .mul⟩ 0 ⟨[], []⟩ =
      some (emit ⟨[0x43, 0x00, 0x00, 0x20, 0x40, 0x23, 0x01], []⟩ [0x94]) := by
  have h1 := binary_mismatch_behavior env0 g2x 9 ⟨3, (0, 0), .cmp .EQ⟩
    ⟨1, (0, 0), .constNode 1075838976⟩ ⟨2, (0, 0), .getVariable 0⟩ 0 0
    ⟨[], []⟩ ⟨[0x43, 0x00, 0x00, 0x20, 0x40], []⟩
    ⟨[0x43, 0x00, 0x00, 0x20, 0x40, 0x23, 0x01], []⟩ .FLOAT .I32
    (by decide) (by decide) (by decide) (by decide) (by decide) (by decide)
    (by decide)
  have h2 := binary_mismatch_behavior env0 g2x 9 ⟨3, (0, 0), .add⟩
    ⟨1, (0, 0), .constNode 1075838976⟩ ⟨2, (0, 0), .getVariable 0⟩ 0 0
    ⟨[], []⟩ ⟨[0x43, 0x00, 0x00, 0x20, 0x40], []⟩
    ⟨[0x43, 0x00, 0x00, 0x20, 0x40, 0x23, 0x01], []⟩ .FLOAT .I32
    (by decide) (by decide) (by decide) (by decide) (by decide) (by decide)
    (by decide)
  have h3 := binary_mismatch_behavior env0 g2x 9 ⟨3, (0, 0), .mul⟩
    ⟨1, (0, 0), .constNode 1075838976⟩ ⟨2, (0, 0), .getVariable 0⟩ 0 0
    ⟨[], []⟩ ⟨[0x43, 0x00, 0x00, 0x20, 0x40], []⟩
    ⟨[0x43, 0x00, 0x00, 0x20, 0x40, 0x23, 0x01], []⟩ .FLOAT .I32
    (by decide) (by decide) (by decide) (by decide) (by decide) (by decide)
    (by decide)
  exact ⟨h1.1 .EQ rfl, h2.2.1 rfl, h3.2.2 rfl⟩

/-- C3: the selector-0 function bodies of the four entry nodes on an
unconnected flow pin.  `UpdateNode` and `StartNode` emit exactly the
zero-locals byte and the `END` terminator, but `KeyInputNode` and
`MouseMoveNode` additionally emit `LOCAL_GET 0` (`0x20 0x00`) **after**
the terminator: their `switch (output_idx)` is missing a `break` after
`case 0`, so control falls through into `case 1`. -/
theorem entry_generate_fallthrough :
    genNode env0 emptyGraph 10 ⟨1, (0, 0), .keyInput⟩ 0 ⟨[], []⟩ =
      some ⟨[0x00, 0x0B, 0x20, 0x00], []⟩ ∧
    genNode env0 emptyGraph 10 ⟨1, (0, 0), .mouseMove⟩ 0 ⟨[], []⟩ =
      some ⟨[0x00, 0x0B, 0x20, 0x00], []⟩ ∧
    genNode env0 emptyGraph 10 ⟨1, (0, 0), .update⟩ 0 ⟨[], []⟩ =
      some ⟨[0x00, 0x0B], []⟩ ∧
    genNode env0 emptyGraph 10 ⟨1, (0, 0), .start⟩ 0 ⟨[], []⟩ =
      some ⟨[0x00, 0x0B], []⟩ := by
  refine ⟨by decide, by decide, by decide, by decide⟩

/-- C9: a flow/statement node with a required value input disconnected
(`SetYawNode` inputs 1/2, `SetVariableNode` input 1) records its
diagnostic and returns at once: the blob is untouched (no instructions)
and the flow continuation (`generateNext`) is never reached, so
everything downstream is omitted. -/
theorem statement_missing_input_aborts (env : Env) (g : Graph) (fuel : Nat)
    (n : Node) (st : GenState) (oidx : Nat) :
    (n.data = .setYaw → (n.getInputNode 1 g = none ∨ n.getInputNode 2 g = none) →
      genNode env g (fuel + 1) n oidx st = some (setError st n.m_id "Missing inputs") ∧
      (setError st n.m_id "Missing inputs").blob = st.blob) ∧
    (∀ v, n.data = .setVariable v → n.getInputNode 1 g = none →
      genNode env g (fuel + 1) n oidx st = some (setError st n.m_id "Missing input") ∧
      (setError st n.m_id "Missing input").blob = st.blob) := by
  constructor
  · intro hd hor
    refine ⟨?_, rfl⟩
    rw [genNode_setYaw env g fuel n oidx st hd]
    unfold genSetYaw
    rcases hor with h1 | h2
    · rcases hx : n.getInputNode 2 g with _ | o2 <;> rw [h1]
    · rcases hx : n.getInputNode 1 g with _ | o1 <;> rw [h2]
  · intro v hd h1
    refine ⟨?_, rfl⟩
    rw [genNode_setVariable env g fuel n v oidx st hd]
    unfold genSetVariable
    rw [h1]

/-- C9 witness: lone `SetYaw` / `SetVariable` nodes in an empty graph. -/
theorem statement_missing_input_aborts_witness :
    genNode env0 emptyGraph 10 ⟨1, (0, 0), .setYaw⟩ 0 ⟨[], []⟩ =
      some (setError ⟨[], []⟩ 1 "Missing inputs") ∧
    genNode env0 emptyGraph 10 ⟨2, (0, 0), .setVariable 0⟩ 0 ⟨[], []⟩ =
      some (setError ⟨[], []⟩ 2 "Missing input") :=
  ⟨((statement_missing_input_aborts env0 emptyGraph 9 ⟨1, (0, 0), .setYaw⟩
      ⟨[], []⟩ 0).1 rfl (Or.inl rfl)).1,
   ((statement_missing_input_aborts env0 emptyGraph 9 ⟨2, (0, 0), .setVariable 0⟩
      ⟨[], []⟩ 0).2 0 rfl rfl).1⟩

/-- C10: `GetVariableNode::getOutputType` indexes `m_variables[m_var]`
with no bounds check — it yields a value exactly when the stored index is
below the variable count (out of range is UB, modelled `none`) — while
`deserialize` accepts any stored `u32` index without validation. -/
theorem getVariable_outputType_total_iff (g : Graph) (fuel : Nat) (n : Node)
    (v idx : Nat) (hd : n.data = .getVariable v) :
    ((getOutputType g (fuel + 1) n idx).isSome ↔ v < g.m_variables.length) ∧
    (∀ (env : Env) (k : Nat) (rest : List Nat), k < 2 ^ 32 →
      nodeDeser env 7 (u32le k ++ rest) = some (.getVariable k, rest)) := by
  constructor
  · rw [getOutputType_getVariable g fuel n v idx hd]
    rcases Nat.lt_or_ge v g.m_variables.length with h | h
    · rw [List.getElem?_eq_getElem h]
      simp [h]
    · rw [List.getElem?_eq_none h]
      simp
      omega
  · intro env k rest hk
    simp [nodeDeser, readU32_u32le_lt k rest hk]

/-- C10 witness: in-range index 0 on the one-variable graph; `deserialize`
accepting the (out-of-range there) index 5. -/
theorem getVariable_outputType_total_iff_witness :
    ((getOutputType g2x 10 ⟨2, (0, 0), .getVariable 0⟩ 0).isSome ↔
      0 < g2x.m_variables.length) ∧
    nodeDeser env0 7 (u32le 5 ++ []) = some (.getVariable 5, []) :=
  ⟨(getVariable_outputType_total_iff g2x 9 ⟨2, (0, 0), .getVariable 0⟩ 0 0 rfl).1,
   (getVariable_outputType_total_iff g2x 9 ⟨2, (0, 0), .getVariable 0⟩ 0 0 rfl).2
     env0 5 [] (by norm_num)⟩

/-! ## WASM module layout (C8) -/

theorem parseLEB_writeLEB128Go (fuel : Nat) :
    ∀ val, val < fuel → val < 2 ^ 64 → ∀ rest,
      parseLEB (writeLEB128Go fuel val ++ rest) = some (val, rest) := by
  induction fuel with
  | zero => omega
  | succ f ih =>
    intro val h h64 rest
    unfold writeLEB128Go
    split
    · rename_i hc
      rcases hc with ⟨h1, h2⟩ | ⟨h1, h2⟩
      · simp only [List.cons_append, List.nil_append, List.append_eq, parseLEB]
        rw [if_pos (by omega)]
        have hv : val % 128 % 128 = val := by omega
        rw [hv]
      · exfalso
        omega
    · rename_i hc
      have hpos : 0 < val := by
        rcases Nat.eq_zero_or_pos val with h0 | h0
        · exact absurd (Or.inl ⟨by simp [h0], by simp [h0]⟩) hc
        · exact h0
      have hlt : val / 128 < val := Nat.div_lt_self hpos (by norm_num)
      simp only [List.cons_append, List.append_eq, parseLEB]
      rw [if_neg (by omega)]
      rw [ih (val / 128) (by omega) (by omega) rest]
      simp only [Option.map_some']
      have hv : (val % 128 + 128) % 128 + 128 * (val / 128) = val := by omega
      rw [hv]

theorem parseLEB_writeLEB128 (n : Nat) (hn : n < 2 ^ 64) (rest : List Nat) :
    parseLEB (writeLEB128 n ++ rest) = some (n, rest) :=
  parseLEB_writeLEB128Go (n + 1) n (Nat.lt_succ_self n) hn rest

theorem parseLEBs_flatten (vals : List Nat) (rest : List Nat)
    (h : ∀ v ∈ vals, v < 2 ^ 64) :
    parseLEBs vals.length ((vals.map writeLEB128).flatten ++ rest) =
      some (vals, rest) := by
  induction vals with
  | nil => simp [parseLEBs]
  | cons v t ih =>
    simp only [List.map_cons, List.flatten_cons, List.length_cons,
      List.append_assoc, parseLEBs, Option.bind_eq_bind]
    rw [parseLEB_writeLEB128 v (h v (List.mem_cons_self v t)) _]
    simp only [Option.some_bind]
    rw [ih (fun w hw => h w (List.mem_cons_of_mem v hw))]
    rfl

theorem parseSections_nil (fuel : Nat) : parseSections fuel [] = some [] := by
  cases fuel <;> rfl

theorem parseSections_cons (fuel : Nat) (id : Nat) (body rest : List Nat)
    (hlen : body.length < 2 ^ 32) (tl : List (Nat × List Nat))
    (hrest : parseSections fuel rest = some tl) :
    parseSections (fuel + 1) (writeSection id body ++ rest) =
      some ((id, body) :: tl) := by
  unfold writeSection
  rw [Nat.mod_eq_of_lt hlen]
  simp only [List.cons_append, List.append_assoc, List.append_eq, parseSections,
    Option.bind_eq_bind]
  rw [parseLEB_writeLEB128 body.length (by omega) _]
  simp only [Option.some_bind]
  rw [if_pos (by rw [List.length_append]; omega)]
  rw [List.take_left, List.drop_left, hrest]
  rfl

theorem parseExportEntry_append (name : List Nat) (k idx : Nat) (rest : List Nat)
    (hn : name.length < 2 ^ 64) (hi : idx < 2 ^ 64) :
    parseExportEntry ((wasmWriteString name ++ k :: writeLEB128 idx) ++ rest) =
      some ((name, k, idx), rest) := by
  unfold parseExportEntry wasmWriteString
  simp only [List.append_assoc, List.cons_append, Option.bind_eq_bind]
  rw [parseLEB_writeLEB128 name.length hn _]
  simp only [Option.some_bind]
  rw [List.drop_left, List.take_left]
  simp only [List.head?_cons, Option.some_bind, List.tail_cons]
  rw [parseLEB_writeLEB128 idx hi rest]
  rfl

theorem parseExportEntries_flatten (es : List (List Nat × Nat × Nat))
    (rest : List Nat) (h : ∀ e ∈ es, e.1.length < 2 ^ 64 ∧ e.2.2 < 2 ^ 64) :
    parseExportEntries es.length ((es.map entryBytes).flatten ++ rest) =
      some (es, rest) := by
  induction es with
  | nil => simp [parseExportEntries]
  | cons e t ih =>
    have hb := h e (List.mem_cons_self e t)
    have ih2 := ih (fun w hw => h w (List.mem_cons_of_mem e hw))
    have key : (List.map entryBytes (e :: t)).flatten ++ rest =
        entryBytes e ++ ((List.map entryBytes t).flatten ++ rest) := by
      simp
    rw [List.length_cons, key]
    show (parseExportEntry (entryBytes e ++ ((List.map entryBytes t).flatten ++ rest))).bind
        (fun er => (parseExportEntries t.length er.2).map fun tl => (er.1 :: tl.1, tl.2)) =
      some (e :: t, rest)
    rw [show entryBytes e = wasmWriteString e.1 ++ e.2.1 :: writeLEB128 e.2.2 from rfl]
    rw [parseExportEntry_append e.1 e.2.1 e.2.2 _ hb.1 hb.2]
    simp only [Option.some_bind]
    rw [ih2]
    rfl

theorem filterMap_varGlobal (vars : List Variable) :
    vars.filterMap (fun v =>
      match v.type with
      | .I32 => some ⟨v.name, .I32⟩
      | .FLOAT => some ⟨v.name, .F32⟩
      | _ => none) =
    (vars.filter (fun v => v.type == .I32 || v.type == .FLOAT)).map
      (fun v => (⟨v.name, if v.type = .FLOAT then .F32 else .I32⟩ : Global)) := by
  induction vars with
  | nil => rfl
  | cons v t ih =>
    rw [List.filterMap_cons, List.filter_cons]
    cases hv : v.type <;> simp [hv, ih]

/-- C8 (amended): the emitted module is the fixed 8-byte header followed
by the TYPE, IMPORT, FUNCTION, GLOBAL, EXPORT and CODE sections in that
order (recoverable by a section parser from the length prefixes); the
function section lists, in export order, the signature index
`imports + position`; the export section lists every export as a
function with index `imports + position` and then every global with
index `position`; and the writer configured by `Graph::generate` has the
`self` global first, followed by one global per `i32`- or `float`-typed
graph variable in variable-list order — variables of any other kind hit
`default: ASSERT(false)` (a release no-op) and contribute no global. -/
theorem wasm_emitter_layout (env : Env) (fuel : Nat) (g : Graph) (w : WASMWriter)
    (code : List Nat) (hw : w = graphWriter g)
    (hcb : codeSectionBody env g fuel w = some code)
    (ht : (typeSectionBody w).length < 2 ^ 32)
    (him : (importSectionBody w).length < 2 ^ 32)
    (hf : (functionSectionBody w).length < 2 ^ 32)
    (hgl : (globalSectionBody w).length < 2 ^ 32)
    (hex : (exportSectionBody w).length < 2 ^ 32)
    (hcl : code.length < 2 ^ 32)
    (hni : w.m_imports.length + w.m_exports.length < 2 ^ 64)
    (hng : w.m_exports.length + w.m_globals.length < 2 ^ 64)
    (hnames : ∀ e ∈ w.m_exports, e.name.length < 2 ^ 64)
    (hgnames : ∀ gl ∈ w.m_globals, gl.export_name.length < 2 ^ 64) :
    WASMWriter.write env fuel w g = some
      ([0x00, 0x61, 0x73, 0x6D, 0x01, 0x00, 0x00, 0x00] ++
        (writeSection 1 (typeSectionBody w) ++
        (writeSection 2 (importSectionBody w) ++
        (writeSection 3 (functionSectionBody w) ++
        (writeSection 6 (globalSectionBody w) ++
        (writeSection 7 (exportSectionBody w) ++
        writeSection 10 code)))))) ∧
    parseSections 6
      (writeSection 1 (typeSectionBody w) ++
      (writeSection 2 (importSectionBody w) ++
      (writeSection 3 (functionSectionBody w) ++
      (writeSection 6 (globalSectionBody w) ++
      (writeSection 7 (exportSectionBody w) ++
      writeSection 10 code))))) = some
        [(1, typeSectionBody w), (2, importSectionBody w),
         (3, functionSectionBody w), (6, globalSectionBody w),
         (7, exportSectionBody w), (10, code)] ∧
    (∃ r, parseLEB (functionSectionBody w) = some (w.m_exports.length, r) ∧
      parseLEBs w.m_exports.length r = some
        ((List.range w.m_exports.length).map (fun k => w.m_imports.length + k), [])) ∧
    (∃ r, parseLEB (exportSectionBody w) =
        some (w.m_exports.length + w.m_globals.length, r) ∧
      parseExportEntries (w.m_exports.length + w.m_globals.length) r = some
        (w.m_exports.enum.map (fun p => (p.2.name, 0, w.m_imports.length + p.1)) ++
          w.m_globals.enum.map (fun p => (p.2.export_name, 3, p.1)), [])) ∧
    w.m_globals = ⟨strBytes "self", .I32⟩ ::
      (g.m_variables.filter (fun v => v.type == .I32 || v.type == .FLOAT)).map
        (fun v => (⟨v.name, if v.type = .FLOAT then .F32 else .I32⟩ : Global)) := by
  refine ⟨?_, ?_, ?_, ?_, ?_⟩
  · unfold WASMWriter.write
    rw [hcb]
    rfl
  · have p6 : parseSections 1 (writeSection 10 code) = some [(10, code)] := by
      have h0 := parseSections_cons 0 10 code [] hcl [] (parseSections_nil 0)
      simpa using h0
    have p5 := parseSections_cons 1 7 (exportSectionBody w) _ hex _ p6
    have p4 := parseSections_cons 2 6 (globalSectionBody w) _ hgl _ p5
    have p3 := parseSections_cons 3 3 (functionSectionBody w) _ hf _ p4
    have p2 := parseSections_cons 4 2 (importSectionBody w) _ him _ p3
    exact parseSections_cons 5 1 (typeSectionBody w) _ ht _ p2
  · refine ⟨((List.range w.m_exports.length).map
      (fun k => writeLEB128 (w.m_imports.length + k))).flatten, ?_, ?_⟩
    · exact parseLEB_writeLEB128 w.m_exports.length (by omega) _
    · have hbound : ∀ v ∈ (List.range w.m_exports.length).map
          (fun k => w.m_imports.length + k), v < 2 ^ 64 := by
        intro v hv
        obtain ⟨k, hk, rfl⟩ := List.mem_map.mp hv
        have := List.mem_range.mp hk
        omega
      have hlen : ((List.range w.m_exports.length).map
          (fun k => w.m_imports.length + k)).length = w.m_exports.length := by
        simp
      have hp := parseLEBs_flatten ((List.range w.m_exports.length).map
        (fun k => w.m_imports.length + k)) [] hbound
      rw [List.append_nil, hlen] at hp
      rw [show ((List.range w.m_exports.length).map
          (fun k => w.m_imports.length + k)).map writeLEB128 =
        (List.range w.m_exports.length).map
          (fun k => writeLEB128 (w.m_imports.length + k)) by rw [List.map_map]; rfl] at hp
      exact hp
  · refine ⟨(w.m_exports.enum.map (fun p =>
        wasmWriteString p.2.name ++ 0 :: writeLEB128 (w.m_imports.length + p.1))).flatten ++
      (w.m_globals.enum.map (fun p =>
        wasmWriteString p.2.export_name ++ 3 :: writeLEB128 p.1)).flatten, ?_, ?_⟩
    · unfold exportSectionBody
      rw [List.append_assoc]
      exact parseLEB_writeLEB128 (w.m_exports.length + w.m_globals.length) (by omega) _
    · have hflat : ((w.m_exports.enum.map
            (fun p : Nat × Export => (p.2.name, 0, w.m_imports.length + p.1)) ++
          w.m_globals.enum.map (fun p : Nat × Global => (p.2.export_name, 3, p.1))).map
            entryBytes).flatten =
        (w.m_exports.enum.map (fun p =>
          wasmWriteString p.2.name ++ 0 :: writeLEB128 (w.m_imports.length + p.1))).flatten ++
        (w.m_globals.enum.map (fun p =>
          wasmWriteString p.2.export_name ++ 3 :: writeLEB128 p.1)).flatten := by
        rw [List.map_append, List.flatten_append, List.map_map, List.map_map]
        rfl
      have hlen : (w.m_exports.enum.map
            (fun p : Nat × Export => (p.2.name, 0, w.m_imports.length + p.1)) ++
          w.m_globals.enum.map (fun p : Nat × Global => (p.2.export_name, 3, p.1))).length =
          w.m_exports.length + w.m_globals.length := by
        simp [List.enum_length]
      have hbound : ∀ e ∈ w.m_exports.enum.map
            (fun p : Nat × Export => (p.2.name, 0, w.m_imports.length + p.1)) ++
          w.m_globals.enum.map (fun p : Nat × Global => (p.2.export_name, 3, p.1)),
          e.1.length < 2 ^ 64 ∧ e.2.2 < 2 ^ 64 := by
        intro e he
        rcases List.mem_append.mp he with he | he
        · obtain ⟨p, hp, rfl⟩ := List.mem_map.mp he
          obtain ⟨i, ex⟩ := p
          rw [List.enum_eq_zip_range] at hp
          have h12 := List.of_mem_zip hp
          have hi := List.mem_range.mp h12.1
          have hn := hnames ex h12.2
          refine ⟨hn, ?_⟩
          show w.m_imports.length + i < 2 ^ 64
          omega
        · obtain ⟨p, hp, rfl⟩ := List.mem_map.mp he
          obtain ⟨i, gl⟩ := p
          rw [List.enum_eq_zip_range] at hp
          have h12 := List.of_mem_zip hp
          have hi := List.mem_range.mp h12.1
          have hn := hgnames gl h12.2
          refine ⟨hn, ?_⟩
          show i < 2 ^ 64
          omega
      have hp := parseExportEntries_flatten (w.m_exports.enum.map
            (fun p : Nat × Export => (p.2.name, 0, w.m_imports.length + p.1)) ++
          w.m_globals.enum.map (fun p : Nat × Global => (p.2.export_name, 3, p.1))) [] hbound
      rw [List.append_nil, hlen, hflat] at hp
      exact hp
  · rw [hw]
    show (⟨strBytes "self", .I32⟩ : Global) ::
        g.m_variables.filterMap (fun v =>
          match v.type with
          | .I32 => some ⟨v.name, .I32⟩
          | .FLOAT => some ⟨v.name, .F32⟩
          | _ => none) = _
    rw [filterMap_varGlobal g.m_variables]

/-- C8 witness: the module layout at the concrete one-entry graph — the
write call produces the header plus the six sections in order, and the
globals are `self` then the graph's one (`float`) variable. -/
theorem wasm_emitter_layout_witness :
    WASMWriter.write env0 2 (graphWriter g8) g8 = some
      ([0x00, 0x61, 0x73, 0x6D, 0x01, 0x00, 0x00, 0x00] ++
        (writeSection 1 (typeSectionBody (graphWriter g8)) ++
        (writeSection 2 (importSectionBody (graphWriter g8)) ++
        (writeSection 3 (functionSectionBody (graphWriter g8)) ++
        (writeSection 6 (globalSectionBody (graphWriter g8)) ++
        (writeSection 7 (exportSectionBody (graphWriter g8)) ++
        writeSection 10 [1, 2, 0, 11])))))) ∧
    (graphWriter g8).m_globals = ⟨strBytes "self", .I32⟩ ::
      (g8.m_variables.filter (fun v => v.type == .I32 || v.type == .FLOAT)).map
        (fun v => (⟨v.name, if v.type = .FLOAT then .F32 else .I32⟩ : Global)) := by
  have h := wasm_emitter_layout env0 2 g8 (graphWriter g8) [1, 2, 0, 11] rfl
    (by decide) (by decide) (by decide) (by decide) (by decide) (by decide)
    (by decide) (by decide) (by decide) (by decide) (by decide)
  exact ⟨h.1, h.2.2.2.2⟩

/-- C8 counterexample: on a graph with one `u32` variable the emitter
still writes a module, but its writer holds only the `self` global — the
variable contributes no global, because the variable switch of
`Graph::generate` reaches `default: ASSERT(false)`, a release no-op.
This contradicts the claimed one-global-per-variable layout (and
desynchronizes the `var + 1` global indices that the get/set-variable
nodes emit). -/
theorem wasm_global_skipped :
    (WASMWriter.write env0 1 (graphWriter gU) gU).isSome = true ∧
    gU.m_variables.length = 1 ∧
    (graphWriter gU).m_globals = [⟨strBytes "self", .I32⟩] := by
  refine ⟨rfl, rfl, rfl⟩
